import Mathlib

/-!
Verification development for the tixml2svd converter (src/lib.rs).

The Rust program is a streaming transducer: it walks XML start/end element
events and emits SVD output events, maintaining mutable per-scope state.
We embed it shallowly: XML input events become `PEvent`, emitted output
becomes a list of `OutEvent`, the mutable locals of
`process_peripheral_base` / `process_device_base` become the fields of
`PState` / `DState`, and each `match` arm of the Rust event loop becomes a
Lean function.  Fallible paths (`return Err(..)` and `.unwrap()` panics)
are an `Except PErr` result.  Machine integers are `Nat` with explicit
`% 2^32` / `% 2^64` where Rust (release-mode) wrapping or shift-masking
applies; diagnostics printed with `eprintln!` are collected as `Diag`
values in the state.
-/

namespace Tixml2svd

/-- Mirror of the Rust `Args` structure (src/lib.rs lines 24-37). -/
structure Args where
  silent : Bool
  verbose : Nat
  peripheral_only : Bool
  sanitize : Bool
  no_device_info : Bool
  cpunum : Nat
deriving DecidableEq

/-- An XML attribute: (local name, raw value). -/
abbrev Attr := String × String

/-- Input element events, the shallow image of `xml::reader::XmlEvent`
`StartElement` / `EndElement` as consumed by the transducers. -/
inductive PEvent where
  | start (name : String) (attrs : List Attr)
  | stop (name : String)
deriving DecidableEq

/-- Output events emitted through the `xml::EventWriter`
(`write_start` / `write_content` / `write_end` / `write_comment`). -/
inductive OutEvent where
  | startTag (name : String)
  | text (s : String)
  | endTag
  | comment (s : String)
deriving DecidableEq

/-- Diagnostics printed with `eprintln!` on paths that matter for the
claims (warnings, skip notices); verbosity-gated trace output is not
modelled. -/
inductive Diag where
  | unknownAccess (s : String)
  | nonUniqueRegisterName (s : String)
  | resetvalTooBig (v : Nat) (name : Option String)
  | nonUniqueEnumName (s : String)
  | skippingInstance (id : String)
  | processingPeripheralFile (href : String)
  | peripheralNoSize
deriving DecidableEq

/-- Fatal outcomes: the `io::Error` returns of the Rust code, plus
`panicParse` for the `.unwrap()` calls on numeric parses (which abort
the process on malformed input), and `missingFile` for a failing href
resolution. -/
inductive PErr where
  | fieldTooWide (name : Option String) (offset width regWidth : Nat)
  | resetvalTooBig (v : Nat) (name : Option String)
  | panicParse (s : String)
  | missingFile (href : String)
deriving DecidableEq

/-- Bound of `u32`. -/
def U32M : Nat := 2 ^ 32

/-- Bound of `u64`. -/
def U64M : Nat := 2 ^ 64

/-- Rust `u64` left shift, release-mode semantics (shift amount masked
to 6 bits, result truncated to 64 bits). -/
def shlU64 (v e : Nat) : Nat := (v * 2 ^ (e % 64)) % U64M

/-- Rust `u64` right shift, release-mode semantics. -/
def shrU64 (v e : Nat) : Nat := (v % U64M) / 2 ^ (e % 64)

/-- Rust `u32` wrapping subtraction (`a - b` in release mode); both
arguments are values of `u32` variables, hence below `U32M`. -/
def u32WrapSub (a b : Nat) : Nat := (a + U32M - b) % U32M

/-- Whitespace as stripped by Rust `str::trim` (the ASCII portion of the
Unicode White_Space class; the inputs of interest are ASCII). -/
def isWS (c : Char) : Bool :=
  c = ' ' || c = '\t' || c = '\n' || c = '\x0b' || c = '\x0c' || c = '\r'

/-- Strip leading and trailing whitespace from a character list. -/
def trimChars (cs : List Char) : List Char :=
  ((cs.dropWhile isWS).reverse.dropWhile isWS).reverse

/-- Model of Rust `str::trim`. -/
def rustTrim (s : String) : String := String.mk (trimChars s.data)

/-- Character-list prefix test. -/
def listStarts : List Char → List Char → Bool
  | [], _ => true
  | _ :: _, [] => false
  | p :: ps, c :: cs => p = c && listStarts ps cs

/-- Model of Rust `str::starts_with` for a string pattern. -/
def strStarts (s pat : String) : Bool := listStarts pat.data s.data

/-- Model of slicing `&s[n..]` for ASCII prefixes of known length. -/
def strDrop (s : String) (n : Nat) : String := String.mk (s.data.drop n)

/-- Replace every occurrence of a (non-empty) pattern, front to back;
`fuel` is the input length, which bounds the recursion. -/
def replaceAux (pat rep : List Char) : Nat → List Char → List Char
  | _, [] => []
  | 0, cs => cs
  | fuel + 1, c :: cs =>
    if listStarts pat (c :: cs) then
      rep ++ replaceAux pat rep fuel ((c :: cs).drop pat.length)
    else c :: replaceAux pat rep fuel cs

/-- Model of Rust `str::replace`. -/
def rustReplace (s pat rep : String) : String :=
  String.mk (replaceAux pat.data rep.data s.data.length s.data)

/-- Decimal digit value of a character, as accepted by Rust `from_str`. -/
def digitVal (c : Char) : Option Nat :=
  if c.isDigit then some (c.toNat - 48) else none

/-- Hexadecimal digit value of a character, as accepted by Rust
`from_str_radix(_, 16)`. -/
def hexVal (c : Char) : Option Nat :=
  if c.isDigit then some (c.toNat - 48)
  else if 'a' ≤ c ∧ c ≤ 'f' then some (c.toNat - 87)
  else if 'A' ≤ c ∧ c ≤ 'F' then some (c.toNat - 55)
  else none

/-- Accumulate digits left to right. -/
def parseDigitsAux (digit : Char → Option Nat) (base : Nat) :
    List Char → Nat → Option Nat
  | [], acc => some acc
  | c :: cs, acc =>
    match digit c with
    | some d => parseDigitsAux digit base cs (acc * base + d)
    | none => none

/-- Rust unsigned-integer parsing: optional leading `+`, at least one
digit, error when the value exceeds the type's range.  (Rust detects
the overflow during accumulation; over `Nat` the final bound check
yields the same `Option` result.) -/
def parseNatBase (digit : Char → Option Nat) (base bound : Nat)
    (s : String) : Option Nat :=
  let cs := s.data
  let cs := match cs with
    | '+' :: rest => rest
    | other => other
  if cs = [] then none
  else
    match parseDigitsAux digit base cs 0 with
    | some v => if v < bound then some v else none
    | none => none

/-- `u64::from_str` (decimal). -/
def parseU64Dec (s : String) : Option Nat := parseNatBase digitVal 10 U64M s

/-- `u64::from_str_radix(s, 16)`. -/
def parseU64Hex (s : String) : Option Nat := parseNatBase hexVal 16 U64M s

/-- `u32::from_str` (decimal). -/
def parseU32Dec (s : String) : Option Nat := parseNatBase digitVal 10 U32M s

/-- The bitfield `resetval` parse (src/lib.rs lines 614-620): hexadecimal
when the raw text begins with lowercase `0x`, decimal otherwise. -/
def parseResetval (v : String) : Option Nat :=
  if strStarts v "0x" then parseU64Hex (strDrop v 2) else parseU64Dec v

/-- Attribute-value preprocessing: `value.trim()` under the sanitize
configuration, identity otherwise (applied at each attribute loop of the
source). -/
def tval (args : Args) (v : String) : String :=
  if args.sanitize then rustTrim v else v

/-- Decimal digit character. -/
def decDigit (n : Nat) : Char := Char.ofNat (48 + n % 10)

/-- Digits of `n` in decimal, most significant first; the fuel argument
(one more than the value suffices, since a number has no more digits
than its own successor) keeps the recursion structural. -/
def natToDecAux : Nat → Nat → List Char
  | 0, _ => []
  | fuel + 1, n =>
    if n < 10 then [decDigit n]
    else natToDecAux fuel (n / 10) ++ [decDigit (n % 10)]

/-- Decimal rendering of a `Nat`, the model of Rust's `{}` formatting of
unsigned integers (`to_string`). -/
def natToDec (n : Nat) : String := String.mk (natToDecAux (n + 1) n)

/-- Uppercase hexadecimal digit character. -/
def hexDigitU (n : Nat) : Char :=
  if n < 10 then Char.ofNat (48 + n) else Char.ofNat (55 + n)

/-- Digits of `n` in uppercase hexadecimal, most significant first. -/
def hexUpperAux : Nat → Nat → List Char
  | 0, _ => []
  | fuel + 1, n =>
    if n < 16 then [hexDigitU n]
    else hexUpperAux fuel (n / 16) ++ [hexDigitU (n % 16)]

/-- Uppercase hexadecimal rendering of a `Nat`, the model of Rust's
`{:X}` formatting. -/
def hexUpper (n : Nat) : String := String.mk (hexUpperAux (n + 1) n)

/-- The output of `write_tag`: an element containing one text node. -/
def tagE (element content : String) : List OutEvent :=
  [OutEvent.startTag element, OutEvent.text content, OutEvent.endTag]

/-- Mirror of `write_access` (src/lib.rs lines 52-68): translate the
vendor access code; unknown codes produce no output, only a diagnostic
when not silent. -/
def write_access (args : Args) (ti_access : String) :
    List OutEvent × List Diag :=
  match ti_access with
  | "RO" => (tagE "access" "read", [])
  | "WO" => (tagE "access" "write", [])
  | "RW" => (tagE "access" "read-write", [])
  | unknown => ([], if args.silent then [] else [Diag.unknownAccess unknown])

/-- The Rust `if value.len() > 0 { field = Some(value) }` idiom: set the
option only for a non-empty value, otherwise keep the previous one. -/
def setIfNonempty (cur : Option String) (v : String) : Option String :=
  if v.length > 0 then some v else cur

/-- The sanitize-mode register-name deduplication loop
(src/lib.rs lines 542-552): while the name is already in the used set,
warn and append an underscore; finally record the chosen name.  The
`HashSet` is modelled as a list; `fuel` bounds the loop and
`used.length + 1` always suffices because each collision matches a
distinct element of `used` (successive candidates have strictly
increasing lengths). -/
def dedupName : Nat → List String → String → String × List String × List Diag
  | 0, used, name => (name, name :: used, [])
  | fuel + 1, used, name =>
    if name ∈ used then
      let r := dedupName fuel used (name ++ "_")
      (r.1, r.2.1, Diag.nonUniqueRegisterName name :: r.2.2)
    else (name, name :: used, [])

/-- The mutable locals of `process_peripheral_base`
(src/lib.rs lines 440-454), plus the output and diagnostics streams. -/
structure PState where
  printed_registers_tag : Bool := false
  printed_fields_tag : Bool := false
  printed_enumeratedValues_tag : Bool := false
  register_width : Option Nat := none
  register_reset_value : Option Nat := none
  f_used_registers : Option (List String) := none
  f_used_enumerations : Option (List String) := none
  out : List OutEvent := []
  warnings : List Diag := []
deriving DecidableEq

/-- Attributes collected by the `register` start handler
(src/lib.rs lines 503-509). -/
structure RegAttrs where
  f_id : Option String := none
  f_value : Option String := none
  f_width : Option String := none
  f_description : Option String := none
  f_rwaccess : Option String := none
  f_offset : Option String := none
  f_resetval : Option String := none

/-- The attribute loop of the `register` start handler
(src/lib.rs lines 520-539). -/
def regScan (args : Args) : List Attr → RegAttrs → RegAttrs
  | [], r => r
  | (n, v0) :: rest, r =>
    let v := tval args v0
    let r :=
      match n with
      | "id" => { r with f_id := setIfNonempty r.f_id v }
      | "value" => { r with f_value := setIfNonempty r.f_value v }
      | "width" => { r with f_width := setIfNonempty r.f_width v }
      | "acronym" => r
      | "description" => { r with f_description := setIfNonempty r.f_description v }
      | "rwaccess" => { r with f_rwaccess := setIfNonempty r.f_rwaccess v }
      | "offset" => { r with f_offset := setIfNonempty r.f_offset v }
      | "resetval" => { r with f_resetval := setIfNonempty r.f_resetval v }
      | _ => r
    regScan args rest r

/-- Tail of the `register` start handler after the width field
(src/lib.rs lines 566-581): description fallback chain, access
translation, and the reset-value seed parsed by `parse().unwrap()`
(decimal; a parse failure is a panic). -/
def registerStartRest (args : Args) (st : PState) (r : RegAttrs) :
    Except PErr PState :=
  let st :=
    match r.f_description with
    | some d => { st with out := st.out ++ tagE "description" d }
    | none =>
      match r.f_id with
      | some id => { st with out := st.out ++ tagE "description" id }
      | none => { st with out := st.out ++ tagE "description" "--" }
  let st :=
    match r.f_rwaccess with
    | some a =>
      let r2 := write_access args a
      { st with out := st.out ++ r2.1, warnings := st.warnings ++ r2.2 }
    | none => st
  match r.f_resetval with
  | some rv =>
    match parseU64Dec rv with
    | some v => Except.ok { st with register_reset_value := some v }
    | none => Except.error (PErr.panicParse rv)
  | none => Except.ok st

/-- The `register` start handler (src/lib.rs lines 502-582): open the
lazily-created registers group, open the register, reset the per-register
state, scan attributes, and emit name (after sanitize-mode
deduplication), value, addressOffset, size (parsing the width with
`parse().unwrap()`), description, access, and the reset-value seed. -/
def registerStart (args : Args) (st : PState) (attrs : List Attr) :
    Except PErr PState :=
  let st :=
    if st.printed_registers_tag then st
    else { st with printed_registers_tag := true,
                   out := st.out ++ [OutEvent.startTag "registers"] }
  let st := { st with out := st.out ++ [OutEvent.startTag "register"],
                      printed_fields_tag := false,
                      register_reset_value := none }
  let r := regScan args attrs {}
  let st :=
    match r.f_id with
    | some id =>
      match st.f_used_registers with
      | some used =>
        let d := dedupName (used.length + 1) used id
        { st with out := st.out ++ tagE "name" d.1,
                  f_used_registers := some d.2.1,
                  warnings := st.warnings ++ d.2.2 }
      | none => { st with out := st.out ++ tagE "name" id }
    | none => st
  let st :=
    match r.f_value with
    | some v => { st with out := st.out ++ tagE "value" v }
    | none => st
  let st :=
    match r.f_offset with
    | some o => { st with out := st.out ++ tagE "addressOffset" o }
    | none => st
  match r.f_width with
  | some w =>
    match parseU32Dec w with
    | some wn =>
      registerStartRest args
        { st with register_width := some wn, out := st.out ++ tagE "size" w } r
    | none => Except.error (PErr.panicParse w)
  | none => registerStartRest args st r

/-- Attributes collected by the `bitfield` start handler
(src/lib.rs lines 593-600). -/
structure FieldAttrs where
  f_name : Option String := none
  f_range : Option String := none
  f_begin : Option Nat := none
  f_width : Option Nat := none
  f_end : Option Nat := none
  f_rwaccess : Option String := none
  f_description : Option String := none
  f_reset_value : Option Nat := none

/-- The attribute loop of the `bitfield` start handler
(src/lib.rs lines 602-633).  `begin`, `width` and `end` are parsed with
`unwrap()` (panic on failure); `resetval` is parsed by `parseResetval`
and a failure silently stores `none`. -/
def fieldScan (args : Args) : List Attr → FieldAttrs → Except PErr FieldAttrs
  | [], f => Except.ok f
  | (n, v0) :: rest, f =>
    let v := tval args v0
    match n with
    | "id" => fieldScan args rest { f with f_name := setIfNonempty f.f_name v }
    | "range" => fieldScan args rest { f with f_range := setIfNonempty f.f_range v }
    | "begin" =>
      if v.length > 0 then
        match parseU32Dec v with
        | some b => fieldScan args rest { f with f_begin := some b }
        | none => Except.error (PErr.panicParse v)
      else fieldScan args rest f
    | "width" =>
      if v.length > 0 then
        match parseU32Dec v with
        | some w => fieldScan args rest { f with f_width := some w }
        | none => Except.error (PErr.panicParse v)
      else fieldScan args rest f
    | "end" =>
      if v.length > 0 then
        match parseU32Dec v with
        | some e => fieldScan args rest { f with f_end := some e }
        | none => Except.error (PErr.panicParse v)
      else fieldScan args rest f
    | "rwaccess" => fieldScan args rest { f with f_rwaccess := setIfNonempty f.f_rwaccess v }
    | "description" => fieldScan args rest { f with f_description := setIfNonempty f.f_description v }
    | "resetval" => fieldScan args rest { f with f_reset_value := parseResetval v }
    | _ => fieldScan args rest f

/-- The accumulation step of the `bitfield` handler
(src/lib.rs lines 651-667): when the field's bit position lies inside
the register, either fold `reset_value << end` into the accumulator
(when no high bit is lost) or fail — fatally in strict configuration,
with a warning under sanitize. -/
def bitfieldAccum (args : Args) (st : PState) (f : FieldAttrs)
    (end_int reset_value reg_width : Nat) : Except PErr PState :=
  if end_int < reg_width then
    let overflow := shrU64 reset_value (reg_width - end_int)
    if overflow = 0 then
      let shifted := shlU64 reset_value end_int
      let newAcc :=
        match st.register_reset_value with
        | some rrv => some (rrv ||| shifted)
        | none => some shifted
      Except.ok { st with register_reset_value := newAcc }
    else
      if args.sanitize then
        Except.ok { st with warnings := st.warnings ++ [Diag.resetvalTooBig reset_value f.f_name] }
      else Except.error (PErr.resetvalTooBig reset_value f.f_name)
  else Except.ok st

/-- The validation block of the `bitfield` handler
(src/lib.rs lines 635-669): when `end` is known, recompute the width
from `begin` when present (u32 wrapping arithmetic), and when a reset
value is present check placement (`FieldTooWide` is fatal in every
configuration) and delegate to `bitfieldAccum`.  Returns the possibly
updated field record (its recomputed width is used by the later tag
emission). -/
def bitfieldChecks (args : Args) (st : PState) (f : FieldAttrs) :
    Except PErr (PState × FieldAttrs) :=
  match f.f_end with
  | none => Except.ok (st, f)
  | some end_int =>
    let f :=
      match f.f_begin with
      | some begin_int =>
        { f with f_width := some ((u32WrapSub begin_int end_int + 1) % U32M) }
      | none => f
    match f.f_reset_value with
    | none => Except.ok (st, f)
    | some reset_value =>
      let reg_width := st.register_width.getD 32
      let placement : Except PErr Unit :=
        match f.f_width with
        | some width_int =>
          if (end_int + width_int) % U32M > reg_width then
            Except.error (PErr.fieldTooWide f.f_name end_int width_int reg_width)
          else Except.ok ()
        | none => Except.ok ()
      match placement with
      | Except.error e => Except.error e
      | Except.ok _ =>
        match bitfieldAccum args st f end_int reset_value reg_width with
        | Except.error e => Except.error e
        | Except.ok st2 => Except.ok (st2, f)

/-- The tag emission at the end of the `bitfield` start handler
(src/lib.rs lines 671-700): name, description (prefixed `[begin:end]`
when both bounds are known), bitWidth, bitOffset, and — outside the
sanitize configuration — bitRange. -/
def bitfieldEmit (args : Args) (st : PState) (f : FieldAttrs) : PState :=
  let st :=
    match f.f_name with
    | some nm => { st with out := st.out ++ tagE "name" nm }
    | none => st
  let st :=
    match f.f_description with
    | some d =>
      match f.f_begin, f.f_end with
      | some b, some e =>
        let desc := "[" ++ natToDec b ++ ":" ++ natToDec e ++ "] " ++ d
        { st with out := st.out ++ tagE "description" desc }
      | _, _ =>
        { st with out := st.out ++ tagE "description" (if d = "" then "--" else d) }
    | none => st
  let st :=
    match f.f_width with
    | some w => { st with out := st.out ++ tagE "bitWidth" (natToDec w) }
    | none => st
  let st :=
    match f.f_end with
    | some e => { st with out := st.out ++ tagE "bitOffset" (natToDec e) }
    | none => st
  if args.sanitize then st
  else
    match f.f_range with
    | some rg => { st with out := st.out ++ tagE "bitRange" rg }
    | none => st

/-- The `bitfield` start handler (src/lib.rs lines 584-701). -/
def bitfieldStart (args : Args) (st : PState) (attrs : List Attr) :
    Except PErr PState :=
  let st :=
    if st.printed_fields_tag then st
    else { st with printed_fields_tag := true,
                   out := st.out ++ [OutEvent.startTag "fields"] }
  let st := { st with out := st.out ++ [OutEvent.startTag "field"],
                      printed_enumeratedValues_tag := false }
  match fieldScan args attrs {} with
  | Except.error e => Except.error e
  | Except.ok f =>
    match bitfieldChecks args st f with
    | Except.error e => Except.error e
    | Except.ok (st2, f2) => Except.ok (bitfieldEmit args st2 f2)

/-- Attributes collected by the `bitenum` start handler
(src/lib.rs lines 712-714). -/
structure EnumAttrs where
  f_id : Option String := none
  f_value : Option String := none
  f_description : Option String := none

/-- The attribute loop of the `bitenum` start handler
(src/lib.rs lines 716-731). -/
def enumScan (args : Args) : List Attr → EnumAttrs → EnumAttrs
  | [], e => e
  | (n, v0) :: rest, e =>
    let v := tval args v0
    let e :=
      match n with
      | "id" => { e with f_id := setIfNonempty e.f_id v }
      | "value" => { e with f_value := setIfNonempty e.f_value v }
      | "description" => { e with f_description := setIfNonempty e.f_description v }
      | "token" => e
      | _ => e
    enumScan args rest e

/-- The `bitenum` start handler (src/lib.rs lines 703-759): lazily open
the enumeratedValues group (initialising the sanitize-mode dedup set),
then emit the entry unless its value literal was already seen. -/
def bitenumStart (args : Args) (st : PState) (attrs : List Attr) : PState :=
  let st :=
    if st.printed_enumeratedValues_tag then st
    else { st with printed_enumeratedValues_tag := true,
                   out := st.out ++ [OutEvent.startTag "enumeratedValues"],
                   f_used_enumerations :=
                     if args.sanitize then some [] else st.f_used_enumerations }
  let e := enumScan args attrs {}
  match e.f_value with
  | none => st
  | some value =>
    let p :=
      match st.f_used_enumerations with
      | some used =>
        if value ∈ used then (false, st)
        else (true, { st with f_used_enumerations := some (value :: used) })
      | none => (true, st)
    if p.1 then
      let st := p.2
      let st := { st with out := st.out ++ [OutEvent.startTag "enumeratedValue"] }
      let st :=
        match e.f_id with
        | some id => { st with out := st.out ++ tagE "name" id }
        | none =>
          if args.sanitize then { st with out := st.out ++ tagE "name" value }
          else st
      let st := { st with out := st.out ++ tagE "value" value }
      let st :=
        match e.f_description with
        | some d =>
          { st with out := st.out ++ tagE "description" (if d = "" then "--" else d) }
        | none => st
      { st with out := st.out ++ [OutEvent.endTag] }
    else { st with warnings := st.warnings ++ [Diag.nonUniqueEnumName value] }

/-- The attribute loop of the `module` start handler
(src/lib.rs lines 473-499), which emits tags while scanning. -/
def moduleScanEmit (args : Args) : List Attr → PState → PState
  | [], st => st
  | (n, v0) :: rest, st =>
    let v := tval args v0
    let st :=
      match n with
      | "HW_revision" => st
      | "XML_version" => st
      | "noNamespaceSchemaLocation" => st
      | "id" =>
        if args.peripheral_only then { st with out := st.out ++ tagE "name" v } else st
      | "value" =>
        if args.peripheral_only then { st with out := st.out ++ tagE "value" v } else st
      | "token" => st
      | "description" => { st with out := st.out ++ tagE "description" v }
      | _ => st
    moduleScanEmit args rest st

/-- The `module` start handler (src/lib.rs lines 464-500). -/
def moduleStart (args : Args) (st : PState) (attrs : List Attr) : PState :=
  let st := if args.sanitize then { st with f_used_registers := some [] } else st
  let st :=
    if args.peripheral_only then
      { st with out := st.out ++ [OutEvent.startTag "peripheral"] }
    else st
  let st := { st with printed_registers_tag := false }
  moduleScanEmit args attrs st

/-- The `module` end handler (src/lib.rs lines 774-784). -/
def moduleEnd (args : Args) (st : PState) : PState :=
  let st := { st with f_used_registers := none }
  let st :=
    if st.printed_registers_tag then
      { st with printed_registers_tag := false, out := st.out ++ [OutEvent.endTag] }
    else st
  if args.peripheral_only then { st with out := st.out ++ [OutEvent.endTag] } else st

/-- The `register` end handler (src/lib.rs lines 786-803): close the
fields group when open, emit the reset value — `0x` plus uppercase hex
when the accumulator is present, the literal `0` otherwise — clear the
register width, and close the register. -/
def registerEnd (st : PState) : PState :=
  let st :=
    if st.printed_fields_tag then
      { st with printed_fields_tag := false, out := st.out ++ [OutEvent.endTag] }
    else st
  let st :=
    match st.register_reset_value with
    | some v => { st with out := st.out ++ tagE "resetValue" ("0x" ++ hexUpper v) }
    | none => { st with out := st.out ++ tagE "resetValue" "0" }
  { st with register_width := none, out := st.out ++ [OutEvent.endTag] }

/-- The `bitfield` end handler (src/lib.rs lines 805-812). -/
def bitfieldEnd (st : PState) : PState :=
  let st :=
    if st.printed_enumeratedValues_tag then
      { st with printed_enumeratedValues_tag := false,
                out := st.out ++ [OutEvent.endTag],
                f_used_enumerations := none }
    else st
  { st with out := st.out ++ [OutEvent.endTag] }

/-- One iteration of the event loop of `process_peripheral_base`
(src/lib.rs lines 456-828). -/
def pStep (args : Args) (st : PState) : PEvent → Except PErr PState
  | PEvent.start n attrs =>
    match n with
    | "module" => Except.ok (moduleStart args st attrs)
    | "register" => registerStart args st attrs
    | "bitfield" => bitfieldStart args st attrs
    | "bitenum" => Except.ok (bitenumStart args st attrs)
    | _ => Except.ok st
  | PEvent.stop n =>
    match n with
    | "module" => Except.ok (moduleEnd args st)
    | "register" => Except.ok (registerEnd st)
    | "bitfield" => Except.ok (bitfieldEnd st)
    | "bitenum" => Except.ok st
    | _ => Except.ok st

/-- The event loop of `process_peripheral_base`, from a given state. -/
def pRun (args : Args) (st : PState) : List PEvent → Except PErr PState
  | [] => Except.ok st
  | ev :: evs =>
    match pStep args st ev with
    | Except.ok st2 => pRun args st2 evs
    | Except.error e => Except.error e

/-- Mirror of `process_peripheral_base` (src/lib.rs lines 432-830),
over an already-lexed event list. -/
def process_peripheral_base (args : Args) (evs : List PEvent) :
    Except PErr PState :=
  pRun args {} evs

instance : DecidableEq (Except PErr PState) := fun
  | Except.ok a, Except.ok b =>
    if h : a = b then isTrue (by rw [h])
    else isFalse (fun hh => h (Except.ok.inj hh))
  | Except.ok _, Except.error _ => isFalse (fun hh => Except.noConfusion hh)
  | Except.error _, Except.ok _ => isFalse (fun hh => Except.noConfusion hh)
  | Except.error e1, Except.error e2 =>
    if h : e1 = e2 then isTrue (by rw [h])
    else isFalse (fun hh => h (Except.error.inj hh))

/-- The mutable locals of `process_device_base`
(src/lib.rs lines 252-256), plus the output and diagnostics streams. -/
structure DState where
  printed_peripherals_tag : Bool := true
  in_cpu_tag : Bool := false
  cpunum : Nat := 0
  endianness : Option String := none
  device_attributes : List Attr := []
  out : List OutEvent := []
  warnings : List Diag := []
deriving DecidableEq

/-- Attributes collected by `check_endianness`
(src/lib.rs lines 209-211). -/
structure PropAttrs where
  f_type : Option String := none
  f_value : Option String := none
  f_id : Option String := none

/-- The attribute loop of `check_endianness` (src/lib.rs lines 213-223). -/
def propScan (args : Args) : List Attr → PropAttrs → PropAttrs
  | [], p => p
  | (n, v0) :: rest, p =>
    let v := tval args v0
    let p :=
      match n with
      | "Type" => { p with f_type := setIfNonempty p.f_type v }
      | "Value" => { p with f_value := setIfNonempty p.f_value v }
      | "id" => { p with f_id := setIfNonempty p.f_id v }
      | _ => p
    propScan args rest p

/-- Mirror of `check_endianness` (src/lib.rs lines 208-229): the Value
attribute, provided the Type attribute is `stringfield` and the id
attribute is `Endianness`. -/
def check_endianness (args : Args) (attrs : List Attr) : Option String :=
  let p := propScan args attrs {}
  match p.f_type, p.f_id, p.f_value with
  | some t, some i, some v =>
    if t = "stringfield" ∧ i = "Endianness" then some v else none
  | _, _, _ => none

/-- The device-attribute loop of `generate_device`
(src/lib.rs lines 162-170): id and description (note: no trimming
happens here in the source). -/
def devAttrScan : List Attr → Option String × Option String →
    Option String × Option String
  | [], r => r
  | (n, v) :: rest, r =>
    let r :=
      match n with
      | "id" => (setIfNonempty r.1 v, r.2)
      | "description" => (r.1, setIfNonempty r.2 v)
      | _ => r
    devAttrScan rest r

/-- The cpu-attribute loop of `generate_device`
(src/lib.rs lines 172-186): HW_revision and isa (the latter rewritten
`Cortex_` to `C` under sanitize). -/
def cpuAttrScan (args : Args) : List Attr → Option String × Option String →
    Option String × Option String
  | [], r => r
  | (n, v) :: rest, r =>
    let r :=
      match n with
      | "HW_revision" => (setIfNonempty r.1 v, r.2)
      | "isa" =>
        (r.1,
         if v.length > 0 then
           some (if args.sanitize then rustReplace v "Cortex_" "C" else v)
         else r.2)
      | _ => r
    cpuAttrScan args rest r

/-- Mirror of `generate_device` (src/lib.rs lines 144-206): the emitted
device/CPU metadata block, empty when device-info emission is disabled. -/
def generate_device (args : Args) (device_attributes cpu_attributes : List Attr)
    (endianness : Option String) : List OutEvent :=
  if args.no_device_info then [] else
  let d := devAttrScan device_attributes (none, none)
  let c := cpuAttrScan args cpu_attributes (none, none)
  tagE "name" (d.1.getD "[unknown CPU]") ++
  tagE "version" (c.1.getD "0.0") ++
  tagE "description" (d.2.getD "") ++
  [OutEvent.startTag "cpu"] ++
  tagE "name" (c.2.getD "other") ++
  tagE "revision" (c.1.getD "0.0") ++
  tagE "endian" (endianness.getD "other") ++
  tagE "mpuPresent" "true" ++
  tagE "fpuPresent" "true" ++
  tagE "nvicPrioBits" "3" ++
  tagE "vendorSystickConfig" "false" ++
  [OutEvent.endTag] ++
  tagE "addressUnitBits" "8" ++
  tagE "width" "32" ++
  tagE "size" "32" ++
  tagE "access" "read-write" ++
  tagE "resetValue" "0x00000000" ++
  tagE "resetMask" "0xFFFFFFFF"

/-- Attributes collected by the `instance` start handler
(src/lib.rs lines 295-317). -/
structure InstAttrs where
  f_baseaddr : Option String := none
  f_endaddr : Option String := none
  f_size : Option String := none
  f_id : Option String := none
  f_href : Option String := none

/-- The attribute loop of the `instance` start handler; the id has its
hyphens replaced by underscores under sanitize. -/
def instScan (args : Args) : List Attr → InstAttrs → InstAttrs
  | [], i => i
  | (n, v0) :: rest, i =>
    let v := tval args v0
    let i :=
      match n with
      | "baseaddr" => { i with f_baseaddr := setIfNonempty i.f_baseaddr v }
      | "endaddr" => { i with f_endaddr := setIfNonempty i.f_endaddr v }
      | "size" => { i with f_size := setIfNonempty i.f_size v }
      | "id" =>
        if v.length > 0 then
          { i with f_id := some (if args.sanitize then rustReplace v "-" "_" else v) }
        else i
      | "href" => { i with f_href := setIfNonempty i.f_href v }
      | _ => i
    instScan args rest i

/-- The `instance` start handler (src/lib.rs lines 287-371): skipped
outside the selected CPU scope; otherwise emit the peripheral header
and splice in the referenced peripheral document through the resolver
(`fname2parser`), which maps an href to that document's event list. -/
def instanceStart (args : Args) (resolver : String → Option (List PEvent))
    (st : DState) (attrs : List Attr) : Except PErr DState :=
  if st.in_cpu_tag = false ∨ st.cpunum ≠ args.cpunum then Except.ok st
  else
    let i := instScan args attrs {}
    let skip :=
      match i.f_href with
      | some href => !(strStarts href "../Modules/")
      | none => true
    match i.f_id with
    | none => Except.ok st
    | some id =>
      if skip then
        Except.ok { st with warnings := st.warnings ++ [Diag.skippingInstance id] }
      else if id.length > 0 then
        let st :=
          if st.printed_peripherals_tag then st
          else { st with printed_peripherals_tag := true,
                         out := st.out ++ [OutEvent.startTag "peripherals"] }
        let st := { st with out := st.out ++ [OutEvent.startTag "peripheral"]
                            ++ tagE "name" id }
        let st :=
          match i.f_baseaddr with
          | some b => { st with out := st.out ++ tagE "baseAddress" b }
          | none => st
        let st :=
          match i.f_size with
          | some size =>
            { st with out := st.out ++ [OutEvent.startTag "addressBlock"]
                      ++ tagE "offset" "0" ++ tagE "size" size
                      ++ tagE "usage" "registers" ++ [OutEvent.endTag] }
          | none =>
            if args.silent then st
            else { st with warnings := st.warnings ++ [Diag.peripheralNoSize] }
        match i.f_href with
        | some href =>
          let st :=
            if args.silent then st
            else { st with warnings := st.warnings ++ [Diag.processingPeripheralFile href] }
          match resolver href with
          | none => Except.error (PErr.missingFile href)
          | some evs =>
            match process_peripheral_base args evs with
            | Except.error e => Except.error e
            | Except.ok p =>
              Except.ok { st with out := st.out ++ p.out ++ [OutEvent.endTag],
                                  warnings := st.warnings ++ p.warnings }
        | none => Except.ok { st with out := st.out ++ [OutEvent.endTag] }
      else Except.ok st

/-- One iteration of the event loop of `process_device_base`
(src/lib.rs lines 258-416). -/
def dStep (args : Args) (resolver : String → Option (List PEvent))
    (st : DState) : PEvent → Except PErr DState
  | PEvent.start n attrs =>
    match n with
    | "device" =>
      Except.ok { st with
        out := st.out ++ [OutEvent.startTag "device",
          OutEvent.comment "Created by tixml2svd; https://github.com/dhoove/tixml2svd"],
        device_attributes := attrs }
    | "cpu" =>
      let st := { st with in_cpu_tag := true }
      if st.cpunum ≠ args.cpunum then Except.ok st
      else
        Except.ok { st with
          out := st.out ++ generate_device args st.device_attributes attrs st.endianness,
          printed_peripherals_tag := false }
    | "property" =>
      if st.in_cpu_tag = false then Except.ok st
      else
        Except.ok { st with
          endianness := st.endianness.orElse (fun _ => check_endianness args attrs) }
    | "instance" => instanceStart args resolver st attrs
    | _ => Except.ok st
  | PEvent.stop n =>
    match n with
    | "device" => Except.ok { st with out := st.out ++ [OutEvent.endTag] }
    | "cpu" =>
      let st :=
        if st.cpunum = args.cpunum then
          let st :=
            if st.printed_peripherals_tag then
              { st with out := st.out ++ [OutEvent.endTag] }
            else st
          { st with printed_peripherals_tag := true }
        else st
      Except.ok { st with in_cpu_tag := false, cpunum := st.cpunum + 1 }
    | "instance" => Except.ok st
    | _ => Except.ok st

/-- The event loop of `process_device_base`, from a given state. -/
def dRun (args : Args) (resolver : String → Option (List PEvent))
    (st : DState) : List PEvent → Except PErr DState
  | [] => Except.ok st
  | ev :: evs =>
    match dStep args resolver st ev with
    | Except.ok st2 => dRun args resolver st2 evs
    | Except.error e => Except.error e

/-- Mirror of `process_device_base` (src/lib.rs lines 243-418), over an
already-lexed event list; `resolver` stands for the `fname2parser`
callback. -/
def process_device_base (args : Args)
    (resolver : String → Option (List PEvent)) (evs : List PEvent) :
    Except PErr DState :=
  dRun args resolver {} evs

instance : DecidableEq (Except PErr DState) := fun
  | Except.ok a, Except.ok b =>
    if h : a = b then isTrue (by rw [h])
    else isFalse (fun hh => h (Except.ok.inj hh))
  | Except.ok _, Except.error _ => isFalse (fun hh => Except.noConfusion hh)
  | Except.error _, Except.ok _ => isFalse (fun hh => Except.noConfusion hh)
  | Except.error e1, Except.error e2 =>
    if h : e1 = e2 then isTrue (by rw [h])
    else isFalse (fun hh => h (Except.error.inj hh))

/-- The default configuration: strict (non-sanitize) conversion. -/
def strictArgs : Args :=
  { silent := false, verbose := 0, peripheral_only := false,
    sanitize := false, no_device_info := false, cpunum := 0 }

/-- The sanitize configuration. -/
def sanitizeArgs : Args := { strictArgs with sanitize := true }

/-- Strict configuration selecting CPU index 1, with the synthesized
device-info block suppressed. -/
def cpu1Args : Args := { strictArgs with cpunum := 1, no_device_info := true }

/-- Strict configuration selecting CPU index 1, with the device-info
block emitted. -/
def cpu1InfoArgs : Args := { strictArgs with cpunum := 1 }

/-- A resolver mapping every href to an empty peripheral document. -/
def emptyResolver : String → Option (List PEvent) := fun _ => some []

/-- A bitfield given to the claims' register runs: the raw attribute
strings together with the numbers they parse to. -/
structure FieldIn where
  sE : String
  sW : String
  sV : String
  e : Nat
  w : Nat
  v : Nat

/-- The event pair of one `bitfield` element carrying end, width and
resetval attributes. -/
def fieldEvents (fs : List FieldIn) : List PEvent :=
  fs.foldr
    (fun f acc =>
      PEvent.start "bitfield" [("end", f.sE), ("width", f.sW), ("resetval", f.sV)]
        :: PEvent.stop "bitfield" :: acc)
    []

/-- Well-formedness of one claimed bitfield: its attribute strings parse
to its numbers, it fits the register (`end + width ≤ registerWidth`),
its reset value fits above its offset (`resetValue < 2^(registerWidth -
end)`), and the shift distance is a meaningful u64 shift. -/
def FieldOk (args : Args) (rw : Nat) (f : FieldIn) : Prop :=
  parseU32Dec (tval args f.sE) = some f.e ∧
  parseU32Dec (tval args f.sW) = some f.w ∧
  parseResetval (tval args f.sV) = some f.v ∧
  f.e + f.w ≤ rw ∧ f.v < 2 ^ (rw - f.e) ∧ rw - f.e < 64

instance (args : Args) (rw : Nat) (f : FieldIn) : Decidable (FieldOk args rw f) :=
  decidable_of_iff
    (parseU32Dec (tval args f.sE) = some f.e ∧
     parseU32Dec (tval args f.sW) = some f.w ∧
     parseResetval (tval args f.sV) = some f.v ∧
     f.e + f.w ≤ rw ∧ f.v < 2 ^ (rw - f.e) ∧ rw - f.e < 64)
    Iff.rfl

/-- The specification-side accumulator, written from the claim's words:
starting from `a`, fold in `resetValue <<< end` (mathematical shift,
bitwise OR) for every field placed inside the register. -/
def specAccumFrom (rw : Nat) (a : Option Nat) (fs : List FieldIn) : Option Nat :=
  fs.foldl (fun a f => if f.e < rw then some (a.getD 0 ||| (f.v <<< f.e)) else a) a

/-- The specification-side reset value of a register with no seed:
`none` when no field contributed. -/
def specAccum (rw : Nat) (fs : List FieldIn) : Option Nat :=
  specAccumFrom rw none fs

/-- The state after opening (from the initial state) a register whose
only attribute is a width string parsing to `rw`, with the reset-value
accumulator seeded to `seed` (`none` in the absence of a resetval
attribute). -/
def regOpenState (args : Args) (widthS : String) (rw : Nat)
    (seed : Option Nat) : PState :=
  { printed_registers_tag := true, printed_fields_tag := false,
    printed_enumeratedValues_tag := false, register_width := some rw,
    register_reset_value := seed, f_used_registers := none,
    f_used_enumerations := none,
    out := [OutEvent.startTag "registers", OutEvent.startTag "register"] ++
      tagE "size" (tval args widthS) ++ tagE "description" "--",
    warnings := [] }

theorem pRun_append (args : Args) (a b : List PEvent) :
    ∀ st, pRun args st (a ++ b) =
      match pRun args st a with
      | Except.ok s => pRun args s b
      | Except.error e => Except.error e := by
  induction a with
  | nil => intro st; simp [pRun]
  | cons ev evs ih =>
    intro st
    cases h : pStep args st ev with
    | ok s2 => simp [pRun, h, ih s2]
    | error e => simp [pRun, h]

theorem parseNatBase_length_pos {digit : Char → Option Nat} {base bound : Nat}
    {s : String} {n : Nat} (h : parseNatBase digit base bound s = some n) :
    0 < s.length := by
  cases hd : s.data with
  | nil => rw [parseNatBase, hd] at h; simp at h
  | cons c cs => simp [String.length, hd]

theorem parseU32Dec_length_pos {s : String} {n : Nat}
    (h : parseU32Dec s = some n) : 0 < s.length :=
  parseNatBase_length_pos h

theorem parseU64Dec_length_pos {s : String} {n : Nat}
    (h : parseU64Dec s = some n) : 0 < s.length :=
  parseNatBase_length_pos h

theorem parseNatBase_lt_bound {digit : Char → Option Nat} {base bound : Nat}
    {s : String} {n : Nat} (h : parseNatBase digit base bound s = some n) :
    n < bound := by
  rw [parseNatBase] at h
  split at h
  · exact absurd h (by simp)
  · split at h
    · split at h
      · cases h; assumption
      · exact absurd h (by simp)
    · exact absurd h (by simp)

theorem pStep_start_module (args : Args) (st : PState) (attrs : List Attr) :
    pStep args st (PEvent.start "module" attrs) = Except.ok (moduleStart args st attrs) := rfl

theorem pStep_start_register (args : Args) (st : PState) (attrs : List Attr) :
    pStep args st (PEvent.start "register" attrs) = registerStart args st attrs := rfl

theorem pStep_start_bitfield (args : Args) (st : PState) (attrs : List Attr) :
    pStep args st (PEvent.start "bitfield" attrs) = bitfieldStart args st attrs := rfl

theorem pStep_stop_module (args : Args) (st : PState) :
    pStep args st (PEvent.stop "module") = Except.ok (moduleEnd args st) := rfl

theorem pStep_stop_register (args : Args) (st : PState) :
    pStep args st (PEvent.stop "register") = Except.ok (registerEnd st) := rfl

theorem pStep_stop_bitfield (args : Args) (st : PState) :
    pStep args st (PEvent.stop "bitfield") = Except.ok (bitfieldEnd st) := rfl

theorem fieldScan_ewv (args : Args) (sE sW sV : String) (e w : Nat)
    (ov : Option Nat)
    (hE : parseU32Dec (tval args sE) = some e)
    (hW : parseU32Dec (tval args sW) = some w)
    (hV : parseResetval (tval args sV) = ov) :
    fieldScan args [("end", sE), ("width", sW), ("resetval", sV)] {} =
      Except.ok { f_end := some e, f_width := some w, f_reset_value := ov } := by
  have hE' := parseU32Dec_length_pos hE
  have hW' := parseU32Dec_length_pos hW
  simp [fieldScan, hE, hW, hV, hE', hW']

theorem bitfield_pair (args : Args) (st : PState) (rw : Nat) (f : FieldIn)
    (hw : st.register_width = some rw) (hrw : rw ≤ 64) (hf : FieldOk args rw f) :
    pRun args st
        [PEvent.start "bitfield" [("end", f.sE), ("width", f.sW), ("resetval", f.sV)],
         PEvent.stop "bitfield"] =
      Except.ok { st with printed_fields_tag := true,
                          printed_enumeratedValues_tag := false,
                          register_reset_value :=
                            if f.e < rw then
                              some (st.register_reset_value.getD 0 ||| (f.v <<< f.e))
                            else st.register_reset_value,
                          out := st.out ++
                            ((if st.printed_fields_tag then [] else [OutEvent.startTag "fields"]) ++
                             [OutEvent.startTag "field"] ++
                             tagE "bitWidth" (natToDec f.w) ++
                             tagE "bitOffset" (natToDec f.e) ++ [OutEvent.endTag]) } := by
  obtain ⟨hE, hW, hV, hfit, hvfit, hsh⟩ := hf
  have hscan := fieldScan_ewv args f.sE f.sW f.sV f.e f.w (some f.v) hE hW hV
  have hew : (f.e + f.w) % U32M = f.e + f.w := by
    have h1 : (64 : Nat) < 2 ^ 32 := by norm_num
    exact Nat.mod_eq_of_lt (by unfold U32M; omega)
  have hng : ¬ (f.e + f.w > rw) := by omega
  obtain ⟨prt, pft, pet, rwd, rrv, fur, fue, outl, warns⟩ := st
  simp only at hw
  subst hw
  by_cases hlt : f.e < rw
  · have he64 : f.e < 64 := by omega
    have hshr : shrU64 f.v (rw - f.e) = 0 := by
      have hv64 : f.v < U64M := by
        have : (2 : Nat) ^ (rw - f.e) ≤ 2 ^ 64 := Nat.pow_le_pow_right (by omega) (by omega)
        unfold U64M; omega
      rw [shrU64, Nat.mod_eq_of_lt hv64, Nat.mod_eq_of_lt hsh]
      exact Nat.div_eq_of_lt hvfit
    have hshl : shlU64 f.v f.e = f.v <<< f.e := by
      have hvs : f.v * 2 ^ f.e < U64M := by
        have h2 : f.v * 2 ^ f.e < 2 ^ (rw - f.e) * 2 ^ f.e :=
          (Nat.mul_lt_mul_right (by positivity)).mpr hvfit
        have h3 : 2 ^ (rw - f.e) * 2 ^ f.e = 2 ^ rw := by
          rw [← pow_add]
          congr 1
          omega
        rw [h3] at h2
        have h4 : (2 : Nat) ^ rw ≤ 2 ^ 64 := Nat.pow_le_pow_right (by omega) hrw
        unfold U64M
        omega
      rw [shlU64, Nat.mod_eq_of_lt he64, Nat.mod_eq_of_lt hvs, Nat.shiftLeft_eq]
    cases pft <;> cases rrv <;>
      simp [pRun, pStep_start_bitfield, pStep_stop_bitfield, bitfieldStart, hscan,
            bitfieldChecks, bitfieldAccum, bitfieldEmit, bitfieldEnd, tagE,
            hew, hng, hlt, hshr, hshl]
  · cases pft <;> cases rrv <;>
      simp [pRun, pStep_start_bitfield, pStep_stop_bitfield, bitfieldStart, hscan,
            bitfieldChecks, bitfieldAccum, bitfieldEmit, bitfieldEnd, tagE,
            hew, hng, hlt]

theorem fields_run (args : Args) (rw : Nat) (fs : List FieldIn)
    (hrw : rw ≤ 64) (hfs : ∀ f ∈ fs, FieldOk args rw f) :
    ∀ st : PState, st.register_width = some rw →
      ∃ s δ, pRun args st (fieldEvents fs) = Except.ok s ∧
        s.register_width = some rw ∧
        s.register_reset_value = specAccumFrom rw st.register_reset_value fs ∧
        s.out = st.out ++ δ := by
  induction fs with
  | nil =>
    intro st hw
    exact ⟨st, [], rfl, hw, rfl, by simp⟩
  | cons f fs ih =>
    intro st hw
    have hf := hfs f (List.mem_cons_self _ _)
    have hpair := bitfield_pair args st rw f hw hrw hf
    have hd : fieldEvents (f :: fs) =
        [PEvent.start "bitfield" [("end", f.sE), ("width", f.sW), ("resetval", f.sV)],
         PEvent.stop "bitfield"] ++ fieldEvents fs := rfl
    obtain ⟨s, δ2, h1, h2, h3, h4⟩ :=
      ih (fun g hg => hfs g (List.mem_cons_of_mem _ hg))
        { st with printed_fields_tag := true,
                  printed_enumeratedValues_tag := false,
                  register_reset_value :=
                    if f.e < rw then
                      some (st.register_reset_value.getD 0 ||| (f.v <<< f.e))
                    else st.register_reset_value,
                  out := st.out ++
                    ((if st.printed_fields_tag then [] else [OutEvent.startTag "fields"]) ++
                     [OutEvent.startTag "field"] ++
                     tagE "bitWidth" (natToDec f.w) ++
                     tagE "bitOffset" (natToDec f.e) ++ [OutEvent.endTag]) }
        (by simp [hw])
    refine ⟨s,
      ((if st.printed_fields_tag then [] else [OutEvent.startTag "fields"]) ++
       [OutEvent.startTag "field"] ++ tagE "bitWidth" (natToDec f.w) ++
       tagE "bitOffset" (natToDec f.e) ++ [OutEvent.endTag]) ++ δ2, ?_, h2, ?_, ?_⟩
    · rw [hd, pRun_append, hpair]
      exact h1
    · rw [h3]
      simp [specAccumFrom]
    · rw [h4]
      simp

theorem pRun_cons_ok {args : Args} {st st2 : PState} {ev : PEvent}
    {evs : List PEvent} (h : pStep args st ev = Except.ok st2) :
    pRun args st (ev :: evs) = pRun args st2 evs := by
  rw [pRun, h]

theorem pRun_cons_err {args : Args} {st : PState} {ev : PEvent} {e : PErr}
    {evs : List PEvent} (h : pStep args st ev = Except.error e) :
    pRun args st (ev :: evs) = Except.error e := by
  rw [pRun, h]

theorem registerStartRest_seed (args : Args) (st : PState) (r : RegAttrs)
    (s0 : PState) (rv : String) (n : Nat)
    (hr : r.f_resetval = some rv) (hp : parseU64Dec rv = some n)
    (hok : registerStartRest args st r = Except.ok s0) :
    s0.register_reset_value = some n := by
  simp only [registerStartRest, hr, hp] at hok
  cases hok
  rfl

theorem registerStart_seed (args : Args) (st : PState) (attrs : List Attr)
    (s0 : PState) (rv : String) (n : Nat)
    (hr : (regScan args attrs {}).f_resetval = some rv)
    (hp : parseU64Dec rv = some n)
    (hok : registerStart args st attrs = Except.ok s0) :
    s0.register_reset_value = some n := by
  simp only [registerStart] at hok
  repeat' split at hok
  all_goals first
    | cases hok
    | exact registerStartRest_seed args _ _ s0 rv n hr hp hok

theorem registerStart_width (args : Args) (widthS : String) (rw : Nat)
    (hW : parseU32Dec (tval args widthS) = some rw) :
    registerStart args ({} : PState) [("width", widthS)] =
      Except.ok (regOpenState args widthS rw none) := by
  have hW' := parseU32Dec_length_pos hW
  simp [registerStart, regScan, setIfNonempty, registerStartRest, hW, hW',
        regOpenState, tagE]

theorem registerStart_width_resetval (args : Args) (widthS rvS : String)
    (rw v : Nat)
    (hW : parseU32Dec (tval args widthS) = some rw)
    (hV : parseU64Dec (tval args rvS) = some v) :
    registerStart args ({} : PState) [("width", widthS), ("resetval", rvS)] =
      Except.ok (regOpenState args widthS rw (some v)) := by
  have hW' := parseU32Dec_length_pos hW
  have hV' := parseU64Dec_length_pos hV
  simp [registerStart, regScan, setIfNonempty, registerStartRest, hW, hW',
        hV, hV', regOpenState, tagE]

/-- C1 (amended): for a register carrying a width attribute parsing to
`rw ≤ 64` and no resetval attribute, with every bitfield's attributes
parsing to `(end, width, resetValue)` with `end + width ≤ rw`,
`resetValue < 2^(rw - end)` and a meaningful shift distance, the
resetValue text emitted when the register closes is `0x` followed by
uppercase hexadecimal digits of the bitwise OR of `resetValue <<< end`
over the contributing fields, and exactly `"0"` when no field
contributes. -/
theorem c1_register_packing (args : Args) (widthS : String) (rw : Nat)
    (fs : List FieldIn)
    (hW : parseU32Dec (tval args widthS) = some rw) (hrw : rw ≤ 64)
    (hfs : ∀ f ∈ fs, FieldOk args rw f) :
    ∃ s δ, process_peripheral_base args
        (PEvent.start "register" [("width", widthS)] ::
          (fieldEvents fs ++ [PEvent.stop "register"])) = Except.ok s ∧
      s.out = δ ++ [OutEvent.startTag "resetValue",
        OutEvent.text (match specAccum rw fs with
          | some v => "0x" ++ hexUpper v
          | none => "0"),
        OutEvent.endTag, OutEvent.endTag] := by
  have hreg := registerStart_width args widthS rw hW
  obtain ⟨s2, δ2, h1, h2, h3, h4⟩ :=
    fields_run args rw fs hrw hfs (regOpenState args widthS rw none) rfl
  rw [regOpenState] at h3
  refine ⟨registerEnd s2,
    s2.out ++ (if s2.printed_fields_tag then [OutEvent.endTag] else []), ?_, ?_⟩
  · rw [process_peripheral_base,
        pRun_cons_ok (by rw [pStep_start_register]; exact hreg), pRun_append]
    simp only [h1, pRun, pStep_stop_register]
  · rw [registerEnd]
    rcases hacc : specAccum rw fs with _ | v <;>
      rw [specAccum] at hacc <;> rw [hacc] at h3 <;>
      cases hpf : s2.printed_fields_tag <;>
      simp [h3, hpf, tagE]

/-- C1 counterexample: a register whose resetval attribute is `"5"` and
to which no bitfield contributes emits resetValue text `"0x5"`, not the
literal `"0"` that the claim requires for a register with no
contributing field. -/
theorem c1_counterexample :
    process_peripheral_base strictArgs
        [PEvent.start "register" [("width", "8"), ("resetval", "5")],
         PEvent.stop "register"] =
      Except.ok { printed_registers_tag := true, register_reset_value := some 5,
                  out := [OutEvent.startTag "registers", OutEvent.startTag "register"] ++
                    tagE "size" "8" ++ tagE "description" "--" ++
                    tagE "resetValue" "0x5" ++ [OutEvent.endTag] } ∧
      ("0x5" : String) ≠ "0" :=
  ⟨by decide, by decide⟩

/-- Witness for C1: the specification's own example — register width 8,
field A with end 0, width 4, resetValue 5 and field B with end 4,
width 4, resetValue 10 — emits resetValue text `"0xA5"`. -/
theorem c1_register_packing_witness :
    ∃ s δ, process_peripheral_base strictArgs
        (PEvent.start "register" [("width", "8")] ::
          (fieldEvents [⟨"0", "4", "5", 0, 4, 5⟩, ⟨"4", "4", "10", 4, 4, 10⟩] ++
           [PEvent.stop "register"])) = Except.ok s ∧
      s.out = δ ++ [OutEvent.startTag "resetValue", OutEvent.text "0xA5",
        OutEvent.endTag, OutEvent.endTag] := by
  have h := c1_register_packing strictArgs "8" 8
    [⟨"0", "4", "5", 0, 4, 5⟩, ⟨"4", "4", "10", 4, 4, 10⟩]
    (by decide) (by decide) (by decide)
  exact h

/-- C10: a register whose resetval attribute parses as a decimal u64
seeds the accumulated reset value with that number; with no bitfields
the emitted resetValue is `0x` plus its uppercase hex (never the
literal `"0"`), and a later in-range field contribution is folded into
the seed by bitwise OR. -/
theorem c10_resetval_seed (args : Args) (widthS rvS : String) (rw v : Nat)
    (f : FieldIn)
    (hW : parseU32Dec (tval args widthS) = some rw)
    (hV : parseU64Dec (tval args rvS) = some v)
    (hrw : rw ≤ 64) (hf : FieldOk args rw f) (hlt : f.e < rw) :
    (∀ (st : PState) (attrs : List Attr) (s0 : PState) (rv : String) (n : Nat),
      (regScan args attrs {}).f_resetval = some rv →
      parseU64Dec rv = some n →
      registerStart args st attrs = Except.ok s0 →
      s0.register_reset_value = some n) ∧
    (∃ s1 δ1, process_peripheral_base args
        [PEvent.start "register" [("width", widthS), ("resetval", rvS)],
         PEvent.stop "register"] = Except.ok s1 ∧
      s1.out = δ1 ++ [OutEvent.startTag "resetValue",
        OutEvent.text ("0x" ++ hexUpper v), OutEvent.endTag, OutEvent.endTag]) ∧
    ("0x" ++ hexUpper v ≠ "0") ∧
    (∃ s2 δ2, process_peripheral_base args
        (PEvent.start "register" [("width", widthS), ("resetval", rvS)] ::
          (fieldEvents [f] ++ [PEvent.stop "register"])) = Except.ok s2 ∧
      s2.out = δ2 ++ [OutEvent.startTag "resetValue",
        OutEvent.text ("0x" ++ hexUpper (v ||| (f.v <<< f.e))),
        OutEvent.endTag, OutEvent.endTag]) := by
  have hreg := registerStart_width_resetval args widthS rvS rw v hW hV
  refine ⟨?_, ?_, ?_, ?_⟩
  · intro st attrs s0 rv n hr hp hok
    exact registerStart_seed args st attrs s0 rv n hr hp hok
  · refine ⟨registerEnd (regOpenState args widthS rw (some v)),
      (regOpenState args widthS rw (some v)).out, ?_, ?_⟩
    · rw [process_peripheral_base,
          pRun_cons_ok (by rw [pStep_start_register]; exact hreg)]
      simp only [pRun, pStep_stop_register]
    · simp [registerEnd, regOpenState, tagE]
  · intro h
    have hlen := congrArg String.length h
    rw [String.length_append] at hlen
    have h2x : ("0x" : String).length = 2 := rfl
    have h0 : ("0" : String).length = 1 := rfl
    omega
  · obtain ⟨s2, δ2, h1, h2, h3, h4⟩ :=
      fields_run args rw [f] hrw (by simpa using hf)
        (regOpenState args widthS rw (some v)) rfl
    rw [regOpenState] at h3
    simp only [specAccumFrom, List.foldl, hlt, if_pos, Option.getD] at h3
    refine ⟨registerEnd s2,
      s2.out ++ (if s2.printed_fields_tag then [OutEvent.endTag] else []), ?_, ?_⟩
    · rw [process_peripheral_base,
          pRun_cons_ok (by rw [pStep_start_register]; exact hreg), pRun_append, h1]
      simp only [pRun, pStep_stop_register]
    · rw [registerEnd]
      cases hpf : s2.printed_fields_tag <;> simp [h3, hpf, tagE]

/-- Witness for C10: register width 8 with resetval attribute `"5"` —
alone it emits `"0x5"`; with a field of end 4, width 4, resetValue 10
it emits `"0xA5"` (5 OR 160). -/
theorem c10_resetval_seed_witness :
    (∃ s1 δ1, process_peripheral_base strictArgs
        [PEvent.start "register" [("width", "8"), ("resetval", "5")],
         PEvent.stop "register"] = Except.ok s1 ∧
      s1.out = δ1 ++ [OutEvent.startTag "resetValue",
        OutEvent.text "0x5", OutEvent.endTag, OutEvent.endTag]) ∧
    (("0x5" : String) ≠ "0") ∧
    (∃ s2 δ2, process_peripheral_base strictArgs
        (PEvent.start "register" [("width", "8"), ("resetval", "5")] ::
          (fieldEvents [⟨"4", "4", "10", 4, 4, 10⟩] ++ [PEvent.stop "register"])) =
        Except.ok s2 ∧
      s2.out = δ2 ++ [OutEvent.startTag "resetValue",
        OutEvent.text "0xA5", OutEvent.endTag, OutEvent.endTag]) := by
  have h := c10_resetval_seed strictArgs "8" "5" 8 5 ⟨"4", "4", "10", 4, 4, 10⟩
    (by decide) (by decide) (by decide) (by decide) (by decide)
  exact h.2

/-- C2 counterexample: a bitfield with known end 6 and width 4 inside a
register of width 8 (`end + width = 10 > 8`) but with no resetval
attribute passes the conversion successfully — the placement check is
not performed, so it is not unconditional. -/
theorem c2_counterexample :
    process_peripheral_base strictArgs
        [PEvent.start "register" [("width", "8")],
         PEvent.start "bitfield" [("end", "6"), ("width", "4")],
         PEvent.stop "bitfield", PEvent.stop "register"] =
      Except.ok { printed_registers_tag := true,
                  out := [OutEvent.startTag "registers", OutEvent.startTag "register"] ++
                    tagE "size" "8" ++ tagE "description" "--" ++
                    [OutEvent.startTag "fields", OutEvent.startTag "field"] ++
                    tagE "bitWidth" "4" ++ tagE "bitOffset" "6" ++
                    [OutEvent.endTag, OutEvent.endTag] ++
                    tagE "resetValue" "0" ++ [OutEvent.endTag] } := by
  decide

/-- C2 (amended): for a bitfield with known end and width carrying a
resetval attribute that parses, `end + width > registerWidth` makes the
whole conversion fail with the field-too-wide error, in every
configuration (strict and sanitize alike). -/
theorem c2_field_too_wide (args : Args) (widthS endS fwS rvS : String)
    (rw e w v : Nat)
    (hW : parseU32Dec (tval args widthS) = some rw)
    (hE : parseU32Dec (tval args endS) = some e)
    (hF : parseU32Dec (tval args fwS) = some w)
    (hV : parseResetval (tval args rvS) = some v)
    (hgt : e + w > rw) (hlt32 : e + w < U32M) :
    process_peripheral_base args
        [PEvent.start "register" [("width", widthS)],
         PEvent.start "bitfield" [("end", endS), ("width", fwS), ("resetval", rvS)],
         PEvent.stop "bitfield", PEvent.stop "register"] =
      Except.error (PErr.fieldTooWide none e w rw) := by
  have hreg := registerStart_width args widthS rw hW
  have hscan := fieldScan_ewv args endS fwS rvS e w (some v) hE hF hV
  have hew : (e + w) % U32M = e + w := Nat.mod_eq_of_lt hlt32
  have hbf : bitfieldStart args (regOpenState args widthS rw none)
      [("end", endS), ("width", fwS), ("resetval", rvS)] =
      Except.error (PErr.fieldTooWide none e w rw) := by
    simp [bitfieldStart, hscan, bitfieldChecks, regOpenState, hew, hgt]
  rw [process_peripheral_base,
      pRun_cons_ok (by rw [pStep_start_register]; exact hreg),
      pRun_cons_err (by rw [pStep_start_bitfield]; exact hbf)]

/-- Witness for C2: field end 6, width 4, resetval 1 in a register of
width 8 aborts with the field-too-wide error under both the strict and
the sanitize configuration. -/
theorem c2_field_too_wide_witness :
    process_peripheral_base strictArgs
        [PEvent.start "register" [("width", "8")],
         PEvent.start "bitfield" [("end", "6"), ("width", "4"), ("resetval", "1")],
         PEvent.stop "bitfield", PEvent.stop "register"] =
      Except.error (PErr.fieldTooWide none 6 4 8) ∧
    process_peripheral_base sanitizeArgs
        [PEvent.start "register" [("width", "8")],
         PEvent.start "bitfield" [("end", "6"), ("width", "4"), ("resetval", "1")],
         PEvent.stop "bitfield", PEvent.stop "register"] =
      Except.error (PErr.fieldTooWide none 6 4 8) :=
  ⟨c2_field_too_wide strictArgs "8" "6" "4" "1" 8 6 4 1
      (by decide) (by decide) (by decide) (by decide) (by decide) (by decide),
   c2_field_too_wide sanitizeArgs "8" "6" "4" "1" 8 6 4 1
      (by decide) (by decide) (by decide) (by decide) (by decide) (by decide)⟩

/-- C3 counterexample: a bitfield with end 0, width 16, resetValue 511
in a register of width 8 satisfies the claim's overflow condition
(`511 >> (8 - 0) ≠ 0`), yet under the sanitize configuration the
conversion does not continue with a warning — it aborts fatally with
the field-too-wide error, because the placement check precedes the
value-fit check and remains fatal in every configuration. -/
theorem c3_counterexample :
    shrU64 511 (8 - 0) ≠ 0 ∧
    process_peripheral_base sanitizeArgs
        [PEvent.start "register" [("width", "8")],
         PEvent.start "bitfield" [("end", "0"), ("width", "16"), ("resetval", "511")],
         PEvent.stop "bitfield", PEvent.stop "register"] =
      Except.error (PErr.fieldTooWide none 0 16 8) :=
  ⟨by decide, by decide⟩

theorem fieldScan_iddesc (args : Args) (nameS descS endS fwS rvS : String)
    (e w : Nat) (ov : Option Nat) (nm ds : String)
    (hn : tval args nameS = nm) (hnl : 0 < nm.length)
    (hd : tval args descS = ds) (hdl : 0 < ds.length)
    (hE : parseU32Dec (tval args endS) = some e)
    (hF : parseU32Dec (tval args fwS) = some w)
    (hV : parseResetval (tval args rvS) = ov) :
    fieldScan args [("id", nameS), ("description", descS),
        ("end", endS), ("width", fwS), ("resetval", rvS)] {} =
      Except.ok { f_name := some nm, f_description := some ds,
                  f_end := some e, f_width := some w, f_reset_value := ov } := by
  have hE' := parseU32Dec_length_pos hE
  have hF' := parseU32Dec_length_pos hF
  simp [fieldScan, setIfNonempty, hn, hnl, hd, hdl, hE, hE', hF, hF', hV]

/-- C3 (amended): for a bitfield that passes the placement check
(end + width ≤ registerWidth), sits inside the register (end <
registerWidth) and whose reset value loses high bits
(`resetValue >> (registerWidth - end) ≠ 0`): the strict configuration
aborts the whole conversion with the reset-value-overflow error, while
the sanitize configuration only records a warning, omits the field's
contribution (the register still emits resetValue `"0"`), continues,
and still emits the field's name, description, bitWidth and bitOffset
tags. -/
theorem c3_overflow_sanitize (args : Args)
    (widthS nameS descS endS fwS rvS : String) (rw e w v : Nat) (nm ds : String)
    (hW : parseU32Dec (tval args widthS) = some rw)
    (hn : tval args nameS = nm) (hnl : 0 < nm.length)
    (hd : tval args descS = ds) (hdl : 0 < ds.length)
    (hE : parseU32Dec (tval args endS) = some e)
    (hF : parseU32Dec (tval args fwS) = some w)
    (hV : parseResetval (tval args rvS) = some v)
    (hfit : e + w ≤ rw) (hlt : e < rw)
    (hovf : shrU64 v (rw - e) ≠ 0) :
    (args.sanitize = false →
      process_peripheral_base args
          [PEvent.start "register" [("width", widthS)],
           PEvent.start "bitfield" [("id", nameS), ("description", descS),
             ("end", endS), ("width", fwS), ("resetval", rvS)],
           PEvent.stop "bitfield", PEvent.stop "register"] =
        Except.error (PErr.resetvalTooBig v (some nm))) ∧
    (args.sanitize = true →
      process_peripheral_base args
          [PEvent.start "register" [("width", widthS)],
           PEvent.start "bitfield" [("id", nameS), ("description", descS),
             ("end", endS), ("width", fwS), ("resetval", rvS)],
           PEvent.stop "bitfield", PEvent.stop "register"] =
        Except.ok { printed_registers_tag := true,
                    out := [OutEvent.startTag "registers", OutEvent.startTag "register"] ++
                      tagE "size" (tval args widthS) ++ tagE "description" "--" ++
                      [OutEvent.startTag "fields", OutEvent.startTag "field"] ++
                      tagE "name" nm ++ tagE "description" ds ++
                      tagE "bitWidth" (natToDec w) ++ tagE "bitOffset" (natToDec e) ++
                      [OutEvent.endTag, OutEvent.endTag] ++
                      tagE "resetValue" "0" ++ [OutEvent.endTag],
                    warnings := [Diag.resetvalTooBig v (some nm)] }) := by
  have hreg := registerStart_width args widthS rw hW
  have hscan := fieldScan_iddesc args nameS descS endS fwS rvS e w (some v)
    nm ds hn hnl hd hdl hE hF hV
  have hrw32 := parseNatBase_lt_bound hW
  have hew : (e + w) % U32M = e + w := Nat.mod_eq_of_lt (by omega)
  have hng : ¬ (e + w > rw) := by omega
  have hds : ¬ (ds = "") := by
    intro hh
    subst hh
    simp at hdl
  constructor
  · intro hs
    have hbf : bitfieldStart args (regOpenState args widthS rw none)
        [("id", nameS), ("description", descS),
         ("end", endS), ("width", fwS), ("resetval", rvS)] =
        Except.error (PErr.resetvalTooBig v (some nm)) := by
      simp [bitfieldStart, hscan, bitfieldChecks, bitfieldAccum, regOpenState,
            hew, hng, hlt, hovf, hs]
    rw [process_peripheral_base,
        pRun_cons_ok (by rw [pStep_start_register]; exact hreg),
        pRun_cons_err (by rw [pStep_start_bitfield]; exact hbf)]
  · intro hs
    have hbf : bitfieldStart args (regOpenState args widthS rw none)
        [("id", nameS), ("description", descS),
         ("end", endS), ("width", fwS), ("resetval", rvS)] =
        Except.ok { printed_registers_tag := true, printed_fields_tag := true,
                    printed_enumeratedValues_tag := false,
                    register_width := some rw, register_reset_value := none,
                    f_used_registers := none, f_used_enumerations := none,
                    out := [OutEvent.startTag "registers", OutEvent.startTag "register"] ++
                      tagE "size" (tval args widthS) ++ tagE "description" "--" ++
                      [OutEvent.startTag "fields", OutEvent.startTag "field"] ++
                      tagE "name" nm ++ tagE "description" ds ++
                      tagE "bitWidth" (natToDec w) ++ tagE "bitOffset" (natToDec e),
                    warnings := [Diag.resetvalTooBig v (some nm)] } := by
      simp [bitfieldStart, hscan, bitfieldChecks, bitfieldAccum, bitfieldEmit,
            regOpenState, hew, hng, hlt, hovf, hs, hds, tagE]
    rw [process_peripheral_base,
        pRun_cons_ok (by rw [pStep_start_register]; exact hreg),
        pRun_cons_ok (by rw [pStep_start_bitfield]; exact hbf)]
    simp only [pRun, pStep_stop_bitfield, pStep_stop_register]
    simp [bitfieldEnd, registerEnd, tagE]

/-- Witness for C3: the specification's example — field end 4, width 4,
resetValue 0x1F in a register of width 8 — is fatal under strict and a
skipped-with-warning under sanitize. -/
theorem c3_overflow_sanitize_witness :
    (process_peripheral_base strictArgs
        [PEvent.start "register" [("width", "8")],
         PEvent.start "bitfield" [("id", "F"), ("description", "d"),
           ("end", "4"), ("width", "4"), ("resetval", "0x1F")],
         PEvent.stop "bitfield", PEvent.stop "register"] =
      Except.error (PErr.resetvalTooBig 31 (some "F"))) ∧
    (process_peripheral_base sanitizeArgs
        [PEvent.start "register" [("width", "8")],
         PEvent.start "bitfield" [("id", "F"), ("description", "d"),
           ("end", "4"), ("width", "4"), ("resetval", "0x1F")],
         PEvent.stop "bitfield", PEvent.stop "register"] =
      Except.ok { printed_registers_tag := true,
                  out := [OutEvent.startTag "registers", OutEvent.startTag "register"] ++
                    tagE "size" "8" ++ tagE "description" "--" ++
                    [OutEvent.startTag "fields", OutEvent.startTag "field"] ++
                    tagE "name" "F" ++ tagE "description" "d" ++
                    tagE "bitWidth" (natToDec 4) ++ tagE "bitOffset" (natToDec 4) ++
                    [OutEvent.endTag, OutEvent.endTag] ++
                    tagE "resetValue" "0" ++ [OutEvent.endTag],
                  warnings := [Diag.resetvalTooBig 31 (some "F")] }) :=
  ⟨(c3_overflow_sanitize strictArgs "8" "F" "d" "4" "4" "0x1F" 8 4 4 31 "F" "d"
      (by decide) (by decide) (by decide) (by decide) (by decide) (by decide)
      (by decide) (by decide) (by decide) (by decide) (by decide)).1 rfl,
   (c3_overflow_sanitize sanitizeArgs "8" "F" "d" "4" "4" "0x1F" 8 4 4 31 "F" "d"
      (by decide) (by decide) (by decide) (by decide) (by decide) (by decide)
      (by decide) (by decide) (by decide) (by decide) (by decide)).2 rfl⟩

/-- C5 counterexample: under the strict configuration a bitfield
resetval attribute `"0X1F"` (uppercase X) does not parse — the claim
requires either a hexadecimal reading or a fatal malformed-number
error, but the conversion succeeds with the value silently dropped, no
error and no warning, and the register emits resetValue `"0"`. -/
theorem c5_counterexample :
    process_peripheral_base strictArgs
        [PEvent.start "register" [("width", "8")],
         PEvent.start "bitfield" [("end", "4"), ("width", "4"), ("resetval", "0X1F")],
         PEvent.stop "bitfield", PEvent.stop "register"] =
      Except.ok { printed_registers_tag := true,
                  out := [OutEvent.startTag "registers", OutEvent.startTag "register"] ++
                    tagE "size" "8" ++ tagE "description" "--" ++
                    [OutEvent.startTag "fields", OutEvent.startTag "field"] ++
                    tagE "bitWidth" "4" ++ tagE "bitOffset" "4" ++
                    [OutEvent.endTag, OutEvent.endTag] ++
                    tagE "resetValue" "0" ++ [OutEvent.endTag],
                  warnings := [] } ∧
    parseResetval "0X1F" = none :=
  ⟨by decide, by decide⟩

/-- C5 (amended): a bitfield resetval attribute is parsed as decimal
unless prefixed by lowercase `0x`, in which case hexadecimal (`0X` is
not recognised); when the parse fails, the value is silently treated
as absent in every configuration — the conversion succeeds, no
diagnostic is recorded, and the field contributes nothing. -/
theorem c5_resetval_parse (args : Args) (widthS endS fwS rvS : String)
    (rw e w : Nat)
    (hW : parseU32Dec (tval args widthS) = some rw)
    (hE : parseU32Dec (tval args endS) = some e)
    (hF : parseU32Dec (tval args fwS) = some w)
    (hV : parseResetval (tval args rvS) = none) :
    process_peripheral_base args
        [PEvent.start "register" [("width", widthS)],
         PEvent.start "bitfield" [("end", endS), ("width", fwS), ("resetval", rvS)],
         PEvent.stop "bitfield", PEvent.stop "register"] =
      Except.ok { printed_registers_tag := true,
                  out := [OutEvent.startTag "registers", OutEvent.startTag "register"] ++
                    tagE "size" (tval args widthS) ++ tagE "description" "--" ++
                    [OutEvent.startTag "fields", OutEvent.startTag "field"] ++
                    tagE "bitWidth" (natToDec w) ++ tagE "bitOffset" (natToDec e) ++
                    [OutEvent.endTag, OutEvent.endTag] ++
                    tagE "resetValue" "0" ++ [OutEvent.endTag],
                  warnings := [] } ∧
    (∀ t : String, parseResetval ("0x" ++ t) = parseU64Hex t) ∧
    parseResetval "0x1F" = some 31 ∧ parseResetval "31" = some 31 := by
  have hreg := registerStart_width args widthS rw hW
  have hscan := fieldScan_ewv args endS fwS rvS e w none hE hF hV
  have hbf : bitfieldStart args (regOpenState args widthS rw none)
      [("end", endS), ("width", fwS), ("resetval", rvS)] =
      Except.ok { printed_registers_tag := true, printed_fields_tag := true,
                  printed_enumeratedValues_tag := false,
                  register_width := some rw, register_reset_value := none,
                  f_used_registers := none, f_used_enumerations := none,
                  out := [OutEvent.startTag "registers", OutEvent.startTag "register"] ++
                    tagE "size" (tval args widthS) ++ tagE "description" "--" ++
                    [OutEvent.startTag "fields", OutEvent.startTag "field"] ++
                    tagE "bitWidth" (natToDec w) ++ tagE "bitOffset" (natToDec e),
                  warnings := [] } := by
    simp [bitfieldStart, hscan, bitfieldChecks, bitfieldEmit, regOpenState, tagE]
  refine ⟨?_, ?_, by decide, by decide⟩
  · rw [process_peripheral_base,
        pRun_cons_ok (by rw [pStep_start_register]; exact hreg),
        pRun_cons_ok (by rw [pStep_start_bitfield]; exact hbf)]
    simp only [pRun, pStep_stop_bitfield, pStep_stop_register]
    simp [bitfieldEnd, registerEnd, tagE]
  · intro t
    cases t with
    | mk data => simp [parseResetval, strStarts, strDrop, listStarts, String.append]

/-- Witness for C5: width 8, field end 4, width 4, resetval `"zz"` —
the parse fails and the conversion succeeds silently under the strict
configuration. -/
theorem c5_resetval_parse_witness :
    process_peripheral_base strictArgs
        [PEvent.start "register" [("width", "8")],
         PEvent.start "bitfield" [("end", "4"), ("width", "4"), ("resetval", "zz")],
         PEvent.stop "bitfield", PEvent.stop "register"] =
      Except.ok { printed_registers_tag := true,
                  out := [OutEvent.startTag "registers", OutEvent.startTag "register"] ++
                    tagE "size" "8" ++ tagE "description" "--" ++
                    [OutEvent.startTag "fields", OutEvent.startTag "field"] ++
                    tagE "bitWidth" (natToDec 4) ++ tagE "bitOffset" (natToDec 4) ++
                    [OutEvent.endTag, OutEvent.endTag] ++
                    tagE "resetValue" "0" ++ [OutEvent.endTag],
                  warnings := [] } ∧
    (∀ t : String, parseResetval ("0x" ++ t) = parseU64Hex t) ∧
    parseResetval "0x1F" = some 31 ∧ parseResetval "31" = some 31 :=
  c5_resetval_parse strictArgs "8" "4" "4" "zz" 8 4 4
    (by decide) (by decide) (by decide) (by decide)

theorem bitfieldEmit_preserve (args : Args) (st : PState) (f : FieldAttrs) :
    (bitfieldEmit args st f).register_width = st.register_width ∧
    (bitfieldEmit args st f).register_reset_value = st.register_reset_value := by
  simp only [bitfieldEmit]
  repeat' split
  all_goals exact ⟨rfl, rfl⟩

theorem shlU64_lt_two_pow {v e rw : Nat} (hrw : rw ≤ 64) (he : e < rw)
    (hov : shrU64 v (rw - e) = 0) : shlU64 v e < 2 ^ rw := by
  have he64 : e < 64 := by omega
  have hme : e % 64 = e := Nat.mod_eq_of_lt he64
  rw [shrU64] at hov
  rw [shlU64, hme]
  by_cases hd : rw - e = 64
  · have h0 : v % U64M = 0 := by
      rw [hd] at hov
      simp at hov
      omega
    have he0 : e = 0 := by omega
    subst he0
    simp only [pow_zero, Nat.mul_one]
    have : v % U64M = v % 2 ^ 64 := rfl
    rw [U64M] at h0 ⊢
    rw [h0]
    positivity
  · have hd64 : rw - e < 64 := by omega
    have hmd : (rw - e) % 64 = rw - e := Nat.mod_eq_of_lt hd64
    rw [hmd] at hov
    have hvm : v % U64M < 2 ^ (rw - e) := by
      have := Nat.div_eq_zero_iff (Nat.pos_pow_of_pos (rw - e) (by omega)) |>.mp hov
      exact this
    have hp : (2 : Nat) ^ e % U64M = 2 ^ e := by
      rw [U64M]
      exact Nat.mod_eq_of_lt (Nat.pow_lt_pow_right (by omega) he64)
    calc (v * 2 ^ e) % U64M
        = (v % U64M * (2 ^ e % U64M)) % U64M := by rw [← Nat.mul_mod]
      _ = (v % U64M * 2 ^ e) % U64M := by rw [hp]
      _ ≤ v % U64M * 2 ^ e := Nat.mod_le _ _
      _ < 2 ^ (rw - e) * 2 ^ e := by
          exact (Nat.mul_lt_mul_right (by positivity)).mpr hvm
      _ = 2 ^ rw := by rw [← pow_add]; congr 1; omega

theorem bitfieldAccum_bound (args : Args) (st : PState) (f : FieldAttrs)
    (e v rw : Nat) (st2 : PState) (hrw : rw ≤ 64)
    (hacc : ∀ a, st.register_reset_value = some a → a < 2 ^ rw)
    (hok : bitfieldAccum args st f e v rw = Except.ok st2) :
    st2.register_width = st.register_width ∧
    ∀ a, st2.register_reset_value = some a → a < 2 ^ rw := by
  rw [bitfieldAccum] at hok
  by_cases he : e < rw
  · rw [if_pos he] at hok
    by_cases hov : shrU64 v (rw - e) = 0
    · rw [if_pos hov] at hok
      have hsl := shlU64_lt_two_pow hrw he hov
      cases hrr : st.register_reset_value with
      | none =>
        rw [hrr] at hok
        cases hok
        exact ⟨rfl, by intro a ha; cases ha; exact hsl⟩
      | some rrv =>
        rw [hrr] at hok
        cases hok
        refine ⟨rfl, ?_⟩
        intro a ha
        cases ha
        exact Nat.or_lt_two_pow (hacc rrv hrr) hsl
    · rw [if_neg hov] at hok
      by_cases hs : args.sanitize
      · rw [if_pos hs] at hok
        cases hok
        exact ⟨rfl, hacc⟩
      · rw [if_neg hs] at hok
        cases hok
  · rw [if_neg he] at hok
    cases hok
    exact ⟨rfl, hacc⟩

theorem bitfieldChecks_bound (args : Args) (st : PState) (f : FieldAttrs)
    (st2 : PState) (f2 : FieldAttrs)
    (hrw : st.register_width.getD 32 ≤ 64)
    (hacc : ∀ a, st.register_reset_value = some a →
      a < 2 ^ (st.register_width.getD 32))
    (hok : bitfieldChecks args st f = Except.ok (st2, f2)) :
    st2.register_width = st.register_width ∧
    ∀ a, st2.register_reset_value = some a →
      a < 2 ^ (st.register_width.getD 32) := by
  rw [bitfieldChecks] at hok
  repeat' (first
    | split at hok
    | simp only [] at hok)
  all_goals try cases hok
  all_goals first
    | exact ⟨rfl, hacc⟩
    | (rename_i heq; exact bitfieldAccum_bound _ _ _ _ _ _ _ hrw hacc heq)

/-- C4 counterexample: the register resetval attribute seeds the
accumulator without any width check — after opening a register of
width 8 with resetval `"256"`, the accumulated reset value is 256,
which has bit 8 set, outside `[0, 8)`; the claimed invariant is
violated at a reachable state. -/
theorem c4_counterexample :
    process_peripheral_base strictArgs
        [PEvent.start "register" [("width", "8"), ("resetval", "256")]] =
      Except.ok { printed_registers_tag := true,
                  register_width := some 8,
                  register_reset_value := some 256,
                  out := [OutEvent.startTag "registers", OutEvent.startTag "register"] ++
                    tagE "size" "8" ++ tagE "description" "--" } ∧
    ¬ (256 < 2 ^ 8) :=
  ⟨by decide, by decide⟩

/-- C4 (amended): every accumulator update made while processing a
`bitfield` element preserves the invariant — if the accumulated reset
value was below `2^registerWidth` (registerWidth defaulting to 32,
and at most 64), it stays below it, and the register width itself is
unchanged; the unchecked seed from a register's resetval attribute is
the only update that can break the bound. -/
theorem c4_accumulator_bound (args : Args) (st : PState) (attrs : List Attr)
    (s' : PState)
    (hrw : st.register_width.getD 32 ≤ 64)
    (hacc : ∀ a, st.register_reset_value = some a →
      a < 2 ^ (st.register_width.getD 32))
    (hok : bitfieldStart args st attrs = Except.ok s') :
    s'.register_width = st.register_width ∧
    ∀ a, s'.register_reset_value = some a →
      a < 2 ^ (st.register_width.getD 32) := by
  rw [bitfieldStart] at hok
  cases hscan : fieldScan args attrs {} with
  | error er => rw [hscan] at hok; cases hok
  | ok f =>
    rw [hscan] at hok
    simp only at hok
    set st1 := { (if st.printed_fields_tag then st
        else { st with printed_fields_tag := true,
                       out := st.out ++ [OutEvent.startTag "fields"] }) with
      out := (if st.printed_fields_tag then st
        else { st with printed_fields_tag := true,
                       out := st.out ++ [OutEvent.startTag "fields"] }).out ++
        [OutEvent.startTag "field"],
      printed_enumeratedValues_tag := false } with hst1
    have hw1 : st1.register_width = st.register_width := by
      rw [hst1]
      split <;> simp
    have ha1 : st1.register_reset_value = st.register_reset_value := by
      rw [hst1]
      split <;> simp
    cases hchk : bitfieldChecks args st1 f with
    | error er => rw [hchk] at hok; cases hok
    | ok p =>
      rw [hchk] at hok
      cases hok
      have hb := bitfieldChecks_bound args st1 f p.1 p.2
        (by rw [hw1]; exact hrw)
        (by rw [ha1, hw1]; exact hacc)
        (by rw [hchk])
      have hemit := bitfieldEmit_preserve args p.1 p.2
      constructor
      · rw [hemit.1, hb.1, hw1]
      · intro a ha
        rw [hemit.2] at ha
        have := hb.2 a ha
        rw [hw1] at this
        exact this

/-- Witness for C4: a field with end 0, width 4, resetValue 12 folded
into a register of width 8 whose accumulator holds 5 keeps the
accumulator below `2^8`. -/
theorem c4_accumulator_bound_witness :
    ∃ s', bitfieldStart strictArgs
        { printed_registers_tag := true, register_width := some 8,
          register_reset_value := some 5, out := [] }
        [("end", "0"), ("width", "4"), ("resetval", "12")] = Except.ok s' ∧
      s'.register_width = some 8 ∧
      (∀ a, s'.register_reset_value = some a → a < 2 ^ 8) := by
  have h := c4_accumulator_bound strictArgs
    { printed_registers_tag := true, register_width := some 8,
      register_reset_value := some 5, out := [] }
    [("end", "0"), ("width", "4"), ("resetval", "12")]
    { printed_registers_tag := true, printed_fields_tag := true,
      printed_enumeratedValues_tag := false,
      register_width := some 8, register_reset_value := some 13,
      out := [OutEvent.startTag "fields", OutEvent.startTag "field"] ++
        tagE "bitWidth" "4" ++ tagE "bitOffset" "0" }
    (by decide) (by decide) (by decide)
  exact ⟨_, by decide, h.1, h.2⟩

theorem countP_lt_of_witness {α : Type} (p q : α → Bool) (l : List α)
    (himp : ∀ x, q x = true → p x = true)
    (a : α) (ha : a ∈ l) (hpa : p a = true) (hqa : q a = false) :
    l.countP q < l.countP p := by
  induction l with
  | nil => cases ha
  | cons b bs ih =>
    rw [List.countP_cons, List.countP_cons]
    have hmono : bs.countP q ≤ bs.countP p :=
      List.countP_mono_left (fun x _ hx => himp x hx)
    rcases List.mem_cons.mp ha with rfl | hb
    · rw [hpa, hqa]
      simp
      omega
    · have hih := ih hb
      by_cases hqb : q b = true
      · rw [hqb, himp b hqb]
        simp
        omega
      · rw [Bool.not_eq_true] at hqb
        rw [hqb]
        by_cases hpb : p b = true
        · rw [hpb]
          simp
          omega
        · rw [Bool.not_eq_true] at hpb
          rw [hpb]
          simp
          omega

theorem dedupName_fresh :
    ∀ (fuel : Nat) (used : List String) (name : String),
      used.countP (fun x => decide (name.length ≤ x.length)) < fuel →
      (dedupName fuel used name).1 ∉ used := by
  intro fuel
  induction fuel with
  | zero =>
    intro used name h
    exact absurd h (Nat.not_lt_zero _)
  | succ n ih =>
    intro used name h
    rw [dedupName]
    by_cases hm : name ∈ used
    · rw [if_pos hm]
      simp only
      apply ih
      have hlen : (name ++ "_").length = name.length + 1 := by
        rw [String.length_append]
        rfl
      have hstep : used.countP (fun x => decide ((name ++ "_").length ≤ x.length)) <
          used.countP (fun x => decide (name.length ≤ x.length)) := by
        apply countP_lt_of_witness _ _ _ ?imp name hm ?hp ?hq
        case imp =>
          intro x hx
          rw [hlen] at hx
          simp only [decide_eq_true_eq] at hx ⊢
          omega
        case hp => simp
        case hq =>
          rw [hlen]
          simp
      omega
    · rw [if_neg hm]
      exact hm

/-- C6: in the sanitize configuration duplicate register names within a
module are made unique by appending underscores until the name is
unused (the chosen name is never in the used set), with one warning per
appended underscore: three registers named `CTRL` emit names `CTRL`,
`CTRL_` and `CTRL__`, with one warning for the second and two for the
third. -/
theorem c6_register_dedup :
    (∀ (used : List String) (name : String),
      (dedupName (used.length + 1) used name).1 ∉ used) ∧
    process_peripheral_base sanitizeArgs
        [PEvent.start "module" [("id", "M")],
         PEvent.start "register" [("id", "CTRL")], PEvent.stop "register",
         PEvent.start "register" [("id", "CTRL")], PEvent.stop "register",
         PEvent.start "register" [("id", "CTRL")], PEvent.stop "register",
         PEvent.stop "module"] =
      Except.ok { printed_registers_tag := false,
                  out := [OutEvent.startTag "registers", OutEvent.startTag "register"] ++
                    tagE "name" "CTRL" ++ tagE "description" "CTRL" ++
                    tagE "resetValue" "0" ++
                    [OutEvent.endTag, OutEvent.startTag "register"] ++
                    tagE "name" "CTRL_" ++ tagE "description" "CTRL" ++
                    tagE "resetValue" "0" ++
                    [OutEvent.endTag, OutEvent.startTag "register"] ++
                    tagE "name" "CTRL__" ++ tagE "description" "CTRL" ++
                    tagE "resetValue" "0" ++
                    [OutEvent.endTag, OutEvent.endTag],
                  warnings := [Diag.nonUniqueRegisterName "CTRL",
                               Diag.nonUniqueRegisterName "CTRL",
                               Diag.nonUniqueRegisterName "CTRL_"] } := by
  constructor
  · intro used name
    exact dedupName_fresh (used.length + 1) used name
      (Nat.lt_succ_of_le (List.countP_le_length _))
  · decide

/-- Witness for C6: with `CTRL` and `CTRL_` already used, the chosen
name is `CTRL__`, which is not in the used set. -/
theorem c6_register_dedup_witness :
    (dedupName 3 ["CTRL_", "CTRL"] "CTRL").1 = "CTRL__" ∧
    (dedupName 3 ["CTRL_", "CTRL"] "CTRL").1 ∉ (["CTRL_", "CTRL"] : List String) :=
  ⟨by decide, c6_register_dedup.1 ["CTRL_", "CTRL"] "CTRL"⟩

theorem dStep_start_property (args : Args)
    (resolver : String → Option (List PEvent)) (st : DState) (attrs : List Attr) :
    dStep args resolver st (PEvent.start "property" attrs) =
      (if st.in_cpu_tag = false then Except.ok st
       else Except.ok { st with
         endianness := st.endianness.orElse (fun _ => check_endianness args attrs) }) := rfl

theorem dStep_start_instance (args : Args)
    (resolver : String → Option (List PEvent)) (st : DState) (attrs : List Attr) :
    dStep args resolver st (PEvent.start "instance" attrs) =
      instanceStart args resolver st attrs := rfl

/-- C7: instances outside the selected CPU scope are inert — the
instance handler returns the state unchanged whenever the stream is not
inside a cpu element or the running CPU index differs from the
configured one — and, concretely, a two-CPU document converted with
cpuIndex 1 emits exactly the peripherals of the second cpu block (here
peripheral `B`), with no output from the first block's instance `A`. -/
theorem c7_cpu_filter :
    (∀ (args : Args) (resolver : String → Option (List PEvent))
        (st : DState) (attrs : List Attr),
      st.in_cpu_tag = false ∨ st.cpunum ≠ args.cpunum →
      dStep args resolver st (PEvent.start "instance" attrs) = Except.ok st) ∧
    process_device_base cpu1Args emptyResolver
        [PEvent.start "device" [],
         PEvent.start "cpu" [],
         PEvent.start "instance" [("id", "A"), ("href", "../Modules/a.xml"),
           ("baseaddr", "0x0"), ("size", "4")],
         PEvent.stop "instance", PEvent.stop "cpu",
         PEvent.start "cpu" [],
         PEvent.start "instance" [("id", "B"), ("href", "../Modules/b.xml"),
           ("baseaddr", "0x1"), ("size", "4")],
         PEvent.stop "instance", PEvent.stop "cpu",
         PEvent.stop "device"] =
      Except.ok { printed_peripherals_tag := true, in_cpu_tag := false,
                  cpunum := 2, endianness := none, device_attributes := [],
                  out := [OutEvent.startTag "device",
                    OutEvent.comment "Created by tixml2svd; https://github.com/dhoove/tixml2svd",
                    OutEvent.startTag "peripherals", OutEvent.startTag "peripheral"] ++
                    tagE "name" "B" ++ tagE "baseAddress" "0x1" ++
                    [OutEvent.startTag "addressBlock"] ++ tagE "offset" "0" ++
                    tagE "size" "4" ++ tagE "usage" "registers" ++
                    [OutEvent.endTag, OutEvent.endTag, OutEvent.endTag, OutEvent.endTag],
                  warnings := [Diag.processingPeripheralFile "../Modules/b.xml"] } := by
  constructor
  · intro args resolver st attrs h
    rw [dStep_start_instance, instanceStart, if_pos h]
  · decide

/-- Witness for C7: an instance event arriving while the running CPU
index is 0 but CPU 1 is selected leaves the state untouched. -/
theorem c7_cpu_filter_witness :
    dStep cpu1Args emptyResolver
        { printed_peripherals_tag := true, in_cpu_tag := true, cpunum := 0,
          endianness := none, device_attributes := [], out := [], warnings := [] }
        (PEvent.start "instance" [("id", "A"), ("href", "../Modules/a.xml")]) =
      Except.ok { printed_peripherals_tag := true, in_cpu_tag := true, cpunum := 0,
                  endianness := none, device_attributes := [], out := [],
                  warnings := [] } :=
  c7_cpu_filter.1 cpu1Args emptyResolver _ _ (Or.inr (by decide))

/-- C8 counterexample: with CPU index 1 selected, an Endianness
property inside the first (non-selected) cpu block sets the endianness,
and the emitted CPU metadata carries `big` — property elements outside
the target CPU scope do affect the value, contrary to the claim. -/
theorem c8_counterexample :
    process_device_base cpu1InfoArgs emptyResolver
        [PEvent.start "device" [],
         PEvent.start "cpu" [],
         PEvent.start "property" [("Type", "stringfield"), ("id", "Endianness"),
           ("Value", "big")],
         PEvent.stop "cpu",
         PEvent.start "cpu" [],
         PEvent.stop "cpu",
         PEvent.stop "device"] =
      Except.ok { printed_peripherals_tag := true, in_cpu_tag := false,
                  cpunum := 2, endianness := some "big", device_attributes := [],
                  out := [OutEvent.startTag "device",
                    OutEvent.comment "Created by tixml2svd; https://github.com/dhoove/tixml2svd"] ++
                    tagE "name" "[unknown CPU]" ++ tagE "version" "0.0" ++
                    tagE "description" "" ++ [OutEvent.startTag "cpu"] ++
                    tagE "name" "other" ++ tagE "revision" "0.0" ++
                    tagE "endian" "big" ++ tagE "mpuPresent" "true" ++
                    tagE "fpuPresent" "true" ++ tagE "nvicPrioBits" "3" ++
                    tagE "vendorSystickConfig" "false" ++ [OutEvent.endTag] ++
                    tagE "addressUnitBits" "8" ++ tagE "width" "32" ++
                    tagE "size" "32" ++ tagE "access" "read-write" ++
                    tagE "resetValue" "0x00000000" ++ tagE "resetMask" "0xFFFFFFFF" ++
                    [OutEvent.endTag],
                  warnings := [] } := by
  decide

/-- C8 (amended): the endianness is discovered from property elements
inside any cpu scope — outside every cpu scope a property never sets
it, the first match wins (a present value is never overwritten), an
in-scope property with no value yet stores exactly the
`check_endianness` result, and `check_endianness` yields a value only
when the Type attribute is `stringfield` and the id attribute is
`Endianness`. -/
theorem c8_endianness (args : Args) (resolver : String → Option (List PEvent)) :
    (∀ (st : DState) (attrs : List Attr), st.in_cpu_tag = false →
      dStep args resolver st (PEvent.start "property" attrs) = Except.ok st) ∧
    (∀ (st : DState) (attrs : List Attr) (e : String),
      st.in_cpu_tag = true → st.endianness = some e →
      dStep args resolver st (PEvent.start "property" attrs) = Except.ok st) ∧
    (∀ (st : DState) (attrs : List Attr),
      st.in_cpu_tag = true → st.endianness = none →
      dStep args resolver st (PEvent.start "property" attrs) =
        Except.ok { st with endianness := check_endianness args attrs }) ∧
    (∀ (attrs : List Attr) (v : String), check_endianness args attrs = some v →
      (propScan args attrs {}).f_type = some "stringfield" ∧
      (propScan args attrs {}).f_id = some "Endianness" ∧
      (propScan args attrs {}).f_value = some v) := by
  refine ⟨?_, ?_, ?_, ?_⟩
  · intro st attrs h
    rw [dStep_start_property, if_pos h]
  · intro st attrs e h he
    rw [dStep_start_property, if_neg (by rw [h]; simp)]
    obtain ⟨ppt, ict, cpn, endn, da, outl, warns⟩ := st
    simp only at he
    subst he
    rfl
  · intro st attrs h he
    rw [dStep_start_property, if_neg (by rw [h]; simp), he]
    rfl
  · intro attrs v h
    rw [check_endianness] at h
    split at h
    · rename_i t i w heq
      split at h
      · rename_i hc
        cases h
        refine ⟨?_, ?_, ?_⟩ <;> simp_all
      · cases h
    · cases h

/-- Witness for C8: in-scope discovery, first-match-wins, out-of-scope
inertness and the attribute filter, each at a concrete state. -/
theorem c8_endianness_witness :
    (dStep cpu1InfoArgs emptyResolver
        { printed_peripherals_tag := true, in_cpu_tag := false, cpunum := 0,
          endianness := none, device_attributes := [], out := [], warnings := [] }
        (PEvent.start "property" [("Type", "stringfield"), ("id", "Endianness"),
          ("Value", "big")]) =
      Except.ok { printed_peripherals_tag := true, in_cpu_tag := false, cpunum := 0,
                  endianness := none, device_attributes := [], out := [],
                  warnings := [] }) ∧
    (dStep cpu1InfoArgs emptyResolver
        { printed_peripherals_tag := true, in_cpu_tag := true, cpunum := 0,
          endianness := some "little", device_attributes := [], out := [],
          warnings := [] }
        (PEvent.start "property" [("Type", "stringfield"), ("id", "Endianness"),
          ("Value", "big")]) =
      Except.ok { printed_peripherals_tag := true, in_cpu_tag := true, cpunum := 0,
                  endianness := some "little", device_attributes := [], out := [],
                  warnings := [] }) ∧
    (dStep cpu1InfoArgs emptyResolver
        { printed_peripherals_tag := true, in_cpu_tag := true, cpunum := 0,
          endianness := none, device_attributes := [], out := [], warnings := [] }
        (PEvent.start "property" [("Type", "stringfield"), ("id", "Endianness"),
          ("Value", "big")]) =
      Except.ok { printed_peripherals_tag := true, in_cpu_tag := true, cpunum := 0,
                  endianness := check_endianness cpu1InfoArgs
                    [("Type", "stringfield"), ("id", "Endianness"), ("Value", "big")],
                  device_attributes := [], out := [], warnings := [] }) ∧
    ((propScan cpu1InfoArgs [("Type", "stringfield"), ("id", "Endianness"),
        ("Value", "big")] {}).f_type = some "stringfield" ∧
     (propScan cpu1InfoArgs [("Type", "stringfield"), ("id", "Endianness"),
        ("Value", "big")] {}).f_id = some "Endianness" ∧
     (propScan cpu1InfoArgs [("Type", "stringfield"), ("id", "Endianness"),
        ("Value", "big")] {}).f_value = some "big") := by
  obtain ⟨h1, h2, h3, h4⟩ := c8_endianness cpu1InfoArgs emptyResolver
  exact ⟨h1 _ _ rfl, h2 _ _ "little" rfl rfl, h3 _ _ rfl rfl, h4 _ "big" (by decide)⟩

/-- C9: the access-mode translation maps `RO`, `WO`, `RW` to access
elements `read`, `write`, `read-write`; every other literal produces no
output element and only a diagnostic, which is suppressed when
silent. -/
theorem c9_write_access (args : Args) :
    write_access args "RO" = (tagE "access" "read", []) ∧
    write_access args "WO" = (tagE "access" "write", []) ∧
    write_access args "RW" = (tagE "access" "read-write", []) ∧
    (∀ s : String, s ≠ "RO" → s ≠ "WO" → s ≠ "RW" →
      write_access args s =
        ([], if args.silent then [] else [Diag.unknownAccess s])) := by
  refine ⟨rfl, rfl, rfl, ?_⟩
  intro s h1 h2 h3
  simp [write_access, h1, h2, h3]

/-- Witness for C9: the unknown literal `XX` yields no output and one
diagnostic under the non-silent strict configuration. -/
theorem c9_write_access_witness :
    write_access strictArgs "XX" = ([], [Diag.unknownAccess "XX"]) ∧
    write_access strictArgs "RO" = (tagE "access" "read", []) := by
  obtain ⟨h1, _, _, h4⟩ := c9_write_access strictArgs
  exact ⟨h4 "XX" (by decide) (by decide) (by decide), h1⟩

end Tixml2svd
